import Mathlib

/-!
# Verification of the RASPA sample-conversion, timing-filter and engine logic

This development embeds the core algorithms of the RASPA userspace audio
runtime (sample conversion between codec integer formats and normalized
float32, the delay-locked-loop error filter and its downsampling wrapper,
the real-time loop structure, the open/cleanup resource handling, the
driver-parameter reader and the error-code registry) as Lean definitions,
and proves or refutes the specified properties about them.

Floating-point values are modelled as rationals: every finite IEEE-754
binary32 value is a rational number, and each arithmetic operation of the
source is followed by an explicit round-to-nearest-even step (`rne`) to a
24-bit significand, exactly as binary32 arithmetic behaves in the value
ranges exercised by the code (no overflow to infinity and no subnormals
occur in any computation considered here).
-/

namespace Raspa

/-! ## Round-to-nearest-even on ℚ, 24-bit significand (binary32 model) -/

/-- Round a rational to the nearest integer, ties to even
(the IEEE-754 default rounding of a scaled significand). -/
def rhe (x : ℚ) : ℤ :=
  if Int.fract x < 1/2 then ⌊x⌋
  else if 1/2 < Int.fract x then ⌊x⌋ + 1
  else if Even ⌊x⌋ then ⌊x⌋ else ⌊x⌋ + 1

/-- Round a positive rational to the nearest binary32 value:
scale into the significand range `[2^23, 2^24]` using the binade exponent,
round to the nearest integer with ties to even, and scale back. -/
def rnePos (q : ℚ) : ℚ :=
  (rhe (q / 2 ^ (Int.log 2 q - 23)) : ℚ) * 2 ^ (Int.log 2 q - 23)

/-- Round-to-nearest-even for the binary32 value model (sign-symmetric). -/
def rne (q : ℚ) : ℚ :=
  if 0 < q then rnePos q else if q < 0 then -(rnePos (-q)) else 0

theorem rhe_intCast (n : ℤ) : rhe (n : ℚ) = n := by
  rw [rhe, Int.fract_intCast, if_pos (by norm_num : (0:ℚ) < 1/2), Int.floor_intCast]

theorem rhe_eq_of_abs_sub_lt {x : ℚ} {n : ℤ} (h : |x - (n : ℚ)| < 1/2) :
    rhe x = n := by
  rw [abs_sub_lt_iff] at h
  obtain ⟨h1, h2⟩ := h
  rcases le_or_lt (n : ℚ) x with hc | hc
  · have hfl : ⌊x⌋ = n := by
      rw [Int.floor_eq_iff]
      constructor
      · exact_mod_cast hc
      · linarith
    have hfr : Int.fract x < 1/2 := by
      rw [Int.fract, hfl]
      linarith
    rw [rhe, if_pos hfr, hfl]
  · have hfl : ⌊x⌋ = n - 1 := by
      rw [Int.floor_eq_iff]
      constructor
      · push_cast
        linarith
      · push_cast
        linarith
    have hfr : 1/2 < Int.fract x := by
      rw [Int.fract, hfl]
      push_cast
      linarith
    have hfr2 : ¬ (Int.fract x < 1/2) := by linarith
    rw [rhe, if_neg hfr2, if_pos hfr, hfl]
    omega

/-- Rounding an even integer plus a value in `[1, 2)` to the nearest integer:
results are `N + 1` below the tie at `3/2` and `N + 2` at and above it
(the tie rounds up because `N + 1` is odd). -/
theorem rhe_even_add {N : ℤ} (hN : Even N) {y : ℚ} (hy1 : 1 ≤ y) (hy2 : y < 2) :
    rhe ((N : ℚ) + y) = N + (if 2 * y < 3 then 1 else 2) := by
  rcases lt_trichotomy (2 * y) 3 with hc | hc | hc
  · rw [if_pos hc]
    apply rhe_eq_of_abs_sub_lt
    rw [abs_sub_lt_iff]
    constructor <;> push_cast <;> linarith
  · have hy : y = 3/2 := by linarith
    subst hy
    norm_num
    have hfl : ⌊(N : ℚ) + 3/2⌋ = N + 1 := by
      rw [Int.floor_eq_iff]
      constructor <;> push_cast <;> linarith
    have hfr : Int.fract ((N : ℚ) + 3/2) = 1/2 := by
      rw [Int.fract, hfl]
      push_cast
      ring
    have hodd : ¬ Even (N + 1) := by
      simp [Int.even_add_one]
      exact hN
    simp [rhe, hfr, hfl, hodd]
    ring
  · rw [if_neg (by linarith)]
    apply rhe_eq_of_abs_sub_lt
    rw [abs_sub_lt_iff]
    constructor <;> push_cast <;> linarith

theorem log2_eq_of_bounds {q : ℚ} {e : ℤ} (h0 : 0 < q)
    (h1 : (2:ℚ) ^ e ≤ q) (h2 : q < 2 ^ (e + 1)) : Int.log 2 q = e := by
  have hb : (1:ℕ) < 2 := one_lt_two
  have hcast : ((2:ℕ) : ℚ) = (2:ℚ) := by norm_num
  refine le_antisymm ?_ ?_
  · by_contra hcon
    push_neg at hcon
    have hle : e + 1 ≤ Int.log 2 q := hcon
    have hz : (2:ℚ) ^ (e + 1) ≤ (2:ℚ) ^ (Int.log 2 q) :=
      zpow_le_zpow_right₀ one_le_two hle
    have hq : ((2:ℕ):ℚ) ^ (Int.log 2 q) ≤ q := Int.zpow_log_le_self hb h0
    rw [hcast] at hq
    linarith
  · have := Int.log_mono_right (b := 2) (zpow_pos (by norm_num : (0:ℚ) < 2) e) h1
    rwa [show ((2:ℚ) ^ e) = ((2:ℕ):ℚ) ^ e by rw [hcast], Int.log_zpow hb] at this

theorem rnePos_eq_of_bounds {q : ℚ} {e : ℤ} (h0 : 0 < q)
    (h1 : (2:ℚ) ^ e ≤ q) (h2 : q < 2 ^ (e + 1)) :
    rnePos q = (rhe (q / 2 ^ (e - 23)) : ℚ) * 2 ^ (e - 23) := by
  rw [rnePos, log2_eq_of_bounds h0 h1 h2]

theorem rne_of_pos {q : ℚ} (h : 0 < q) : rne q = rnePos q := by
  simp [rne, h]

theorem rne_zero : rne 0 = 0 := by
  simp [rne]

theorem rne_neg (q : ℚ) : rne (-q) = -rne q := by
  rcases lt_trichotomy q 0 with h | h | h
  · have h1 : 0 < -q := by linarith
    simp [rne, h, h1, not_lt_of_lt h, asymm h1]
  · subst h
    simp [rne]
  · have h1 : -q < 0 := by linarith
    have h2 : ¬ (0 < -q) := by linarith
    simp [rne, h, h1, h2, asymm h]

theorem rnePos_intCast {n : ℤ} (h1 : 0 < n) (h2 : n ≤ 2 ^ 24) :
    rnePos (n : ℚ) = n := by
  have h0 : (0:ℚ) < (n : ℚ) := by exact_mod_cast h1
  set e := Int.log 2 (n : ℚ) with he
  have hb : (1:ℕ) < 2 := one_lt_two
  have hcast : ((2:ℕ) : ℚ) = (2:ℚ) := by norm_num
  have hlow : (2:ℚ) ^ e ≤ (n : ℚ) := by
    have := Int.zpow_log_le_self hb h0
    rwa [hcast] at this
  have hhigh : (n : ℚ) < 2 ^ (e + 1) := by
    have := Int.lt_zpow_succ_log_self hb (n : ℚ)
    rwa [hcast] at this
  have he0 : 0 ≤ e := by
    by_contra hcon
    push_neg at hcon
    have : e + 1 ≤ 0 := by omega
    have hlt : (2:ℚ) ^ (e + 1) ≤ 2 ^ (0:ℤ) := zpow_le_zpow_right₀ one_le_two this
    have : (n:ℚ) < 1 := by
      rw [zpow_zero] at hlt
      linarith
    have : n < 1 := by exact_mod_cast this
    omega
  have he24 : e ≤ 24 := by
    by_contra hcon
    push_neg at hcon
    have h25 : (25:ℤ) ≤ e := by omega
    have : (2:ℚ) ^ (25:ℤ) ≤ 2 ^ e := zpow_le_zpow_right₀ one_le_two h25
    have hn25 : (2:ℚ)^(25:ℤ) ≤ (n:ℚ) := le_trans this hlow
    have : ((2:ℤ)^25 : ℤ) ≤ n := by
      have : ((2:ℚ)^(25:ℤ)) = (((2:ℤ)^(25:ℕ) : ℤ) : ℚ) := by norm_num
      rw [this] at hn25
      exact_mod_cast hn25
    omega
  rcases le_or_lt e 23 with hc | hc
  · -- the scaled value n / 2^(e-23) = n * 2^(23-e) is an integer
    set d : ℕ := (23 - e).toNat with hd
    have hde : (d : ℤ) = 23 - e := by omega
    have hscale : (n : ℚ) / 2 ^ (e - 23) = ((n * 2 ^ d : ℤ) : ℚ) := by
      push_cast
      rw [div_eq_iff (by positivity : ((2:ℚ) ^ (e - 23)) ≠ 0)]
      rw [mul_assoc, ← zpow_natCast (2:ℚ) d, ← zpow_add₀ (by norm_num : (2:ℚ) ≠ 0)]
      rw [show (d : ℤ) + (e - 23) = 0 by omega, zpow_zero, mul_one]
    rw [rnePos, log2_eq_of_bounds h0 hlow hhigh, hscale, rhe_intCast]
    push_cast
    rw [mul_assoc, ← zpow_natCast (2:ℚ) d, ← zpow_add₀ (by norm_num : (2:ℚ) ≠ 0)]
    rw [show (d : ℤ) + (e - 23) = 0 by omega, zpow_zero, mul_one]
  · -- e = 24 forces n = 2^24
    have he' : e = 24 := by omega
    have hn : n = 2 ^ 24 := by
      have : (2:ℚ) ^ (24:ℤ) ≤ (n:ℚ) := by rw [← he']; exact hlow
      have h24 : ((2:ℤ)^(24:ℕ) : ℤ) ≤ n := by
        have hq : ((2:ℚ)^(24:ℤ)) = (((2:ℤ)^(24:ℕ) : ℤ) : ℚ) := by norm_num
        rw [hq] at this
        exact_mod_cast this
      omega
    subst hn
    rw [rnePos, log2_eq_of_bounds h0 hlow hhigh, he']
    have harg : ((2^24 : ℤ) : ℚ) / 2 ^ ((24:ℤ) - 23) = ((8388608 : ℤ) : ℚ) := by
      push_cast
      norm_num
    rw [harg, rhe_intCast]
    push_cast
    norm_num

theorem rne_intCast_abs_le {n : ℤ} (h : |n| ≤ 2 ^ 24) : rne (n : ℚ) = n := by
  rcases lt_trichotomy n 0 with hc | hc | hc
  · have h1 : 0 < -n := by omega
    have h2 : -n ≤ 2 ^ 24 := by
      rw [abs_of_neg hc] at h
      omega
    have hpos : rne (-(n : ℚ)) = -(n : ℚ) := by
      have : rne ((-n : ℤ) : ℚ) = ((-n : ℤ) : ℚ) := by
        rw [rne_of_pos (by exact_mod_cast h1), rnePos_intCast h1 h2]
      push_cast at this
      exact this
    calc rne (n : ℚ) = rne (-(-(n : ℚ))) := by rw [neg_neg]
    _ = -(rne (-(n : ℚ))) := rne_neg _
    _ = -(-(n : ℚ)) := by rw [hpos]
    _ = (n : ℚ) := by rw [neg_neg]
  · subst hc
    simp [rne]
  · have h2 : n ≤ 2 ^ 24 := by
      rw [abs_of_pos hc] at h
      omega
    rw [rne_of_pos (by exact_mod_cast hc), rnePos_intCast hc h2]

/-! ## Two's-complement bit arithmetic

The source manipulates `int32_t` samples with shifts and bitwise AND.
We model `int32_t` values as integers in `[-2^31, 2^31)`; shifts become
multiplication (with explicit wraparound) and euclidean division, and the
two AND-masks of the source (`0x00FFFFFF`, `0x7FFFFF80`) are `Int.land`,
related to modular arithmetic by the lemmas below. -/

theorem testBit_two_pow_sub_one_sub (k : ℕ) : ∀ (r j : ℕ), r < 2 ^ k →
    (2 ^ k - 1 - r).testBit j = (decide (j < k) && !(r.testBit j)) := by
  induction k with
  | zero =>
    intro r j hr
    interval_cases r
    simp
  | succ k ih =>
    intro r j hr
    have hp2 : (2:ℕ) ^ (k + 1) = 2 * 2 ^ k := by ring
    have hp1 : 1 ≤ (2:ℕ) ^ k := Nat.one_le_two_pow
    cases j with
    | zero =>
      simp only [Nat.testBit_zero]
      rw [hp2] at hr ⊢
      by_cases hpar : r % 2 = 1
      · have : (2 * 2 ^ k - 1 - r) % 2 = 0 := by omega
        simp [this, hpar]
      · have : (2 * 2 ^ k - 1 - r) % 2 = 1 := by omega
        simp [this, hpar]
    | succ j =>
      rw [Nat.testBit_succ, Nat.testBit_succ]
      have hdiv : (2 ^ (k + 1) - 1 - r) / 2 = 2 ^ k - 1 - r / 2 := by
        rw [hp2] at hr ⊢
        omega
      rw [hdiv, ih (r / 2) j (by rw [hp2] at hr; omega)]
      simp [Nat.succ_lt_succ_iff]

theorem testBit_false_of_two_pow_dvd {m a i : ℕ} (hdvd : 2 ^ a ∣ m) (hi : i < a) :
    m.testBit i = false := by
  obtain ⟨t, rfl⟩ := hdvd
  rw [mul_comm, ← Nat.shiftLeft_eq, Nat.testBit_shiftLeft]
  simp [Nat.not_le_of_lt hi]

theorem testBit_shifted_mask (a k i : ℕ) :
    (2 ^ a * (2 ^ k - 1)).testBit i = (decide (a ≤ i) && decide (i - a < k)) := by
  rw [mul_comm, ← Nat.shiftLeft_eq, Nat.testBit_shiftLeft, Nat.testBit_two_pow_sub_one]

theorem testBit_true_of_low_ones {m a i : ℕ} (hm : m % 2 ^ a = 2 ^ a - 1)
    (hi : i < a) : m.testBit i = true := by
  have h1 : (m % 2 ^ a).testBit i = (decide (i < a) && m.testBit i) :=
    Nat.testBit_mod_two_pow m a i
  rw [hm, Nat.testBit_two_pow_sub_one] at h1
  simpa [hi] using h1.symm

theorem nat_land_shifted_mask (a k m : ℕ) (hdvd : 2 ^ a ∣ m) :
    m &&& (2 ^ a * (2 ^ k - 1)) = m % 2 ^ (a + k) := by
  apply Nat.eq_of_testBit_eq
  intro i
  rw [Nat.testBit_land, testBit_shifted_mask, Nat.testBit_mod_two_pow]
  by_cases hia : a ≤ i
  · by_cases hik : i < a + k
    · simp [hia, hik, Nat.lt_sub_iff_add_lt, show i - a < k by omega]
    · simp [hia, hik, show ¬ (i - a < k) by omega]
  · have := testBit_false_of_two_pow_dvd hdvd (by omega : i < a)
    simp [this, hia]

theorem nat_ldiff_shifted_mask (a k m : ℕ) (hm : m % 2 ^ a = 2 ^ a - 1) :
    Nat.ldiff (2 ^ a * (2 ^ k - 1)) m = 2 ^ (a + k) - 1 - m % 2 ^ (a + k) := by
  apply Nat.eq_of_testBit_eq
  intro i
  rw [Nat.testBit_ldiff, testBit_shifted_mask,
    testBit_two_pow_sub_one_sub (a + k) (m % 2 ^ (a + k)) i
      (Nat.mod_lt _ (Nat.pos_pow_of_pos _ (by norm_num))),
    Nat.testBit_mod_two_pow]
  by_cases hik : i < a + k
  · by_cases hia : a ≤ i
    · simp [hia, hik, show i - a < k by omega]
    · have := testBit_true_of_low_ones hm (by omega : i < a)
      simp [this, hia, hik]
  · simp [hik, show ¬ (i - a < k) by omega]

theorem int_land_ofNat (m n : ℕ) : Int.land (Int.ofNat m) (Int.ofNat n) =
    Int.ofNat (m &&& n) := rfl

theorem int_land_negSucc_ofNat (m n : ℕ) : Int.land (Int.negSucc m) (Int.ofNat n) =
    Int.ofNat (Nat.ldiff n m) := rfl

theorem negSucc_emod (m : ℕ) (P : ℤ) (hP : 0 < P) :
    (Int.negSucc m) % P = P - 1 - (m : ℤ) % P := by
  have hm := Int.ediv_add_emod (m : ℤ) P
  have hexp : (Int.negSucc m) = (P - 1 - (m : ℤ) % P) + P * (-((m : ℤ) / P) - 1) := by
    rw [Int.negSucc_eq]
    linear_combination hm
  rw [hexp, Int.add_mul_emod_self_left]
  have h0 : 0 ≤ (m : ℤ) % P := Int.emod_nonneg _ (by omega)
  have h1 : (m : ℤ) % P < P := Int.emod_lt_of_pos _ hP
  exact Int.emod_eq_of_lt (by omega) (by omega)

/-- Two's-complement AND with the contiguous mask `(2^k - 1) * 2^a` equals
reduction modulo `2^(a+k)` whenever the low `a` bits of the operand are zero. -/
theorem int_land_mask_shift (x : ℤ) (a k : ℕ) (hdvd : ((2:ℤ) ^ a) ∣ x) :
    Int.land x ((2:ℤ) ^ a * ((2:ℤ) ^ k - 1)) = x % (2:ℤ) ^ (a + k) := by
  have hmask : ((2:ℤ) ^ a * ((2:ℤ) ^ k - 1)) = Int.ofNat (2 ^ a * (2 ^ k - 1)) := by
    rw [Int.ofNat_eq_natCast]
    push_cast [Nat.one_le_two_pow]
    ring
  cases x with
  | ofNat m =>
    have hdvdm : 2 ^ a ∣ m := by
      rw [Int.ofNat_eq_natCast] at hdvd
      exact_mod_cast hdvd
    rw [hmask, int_land_ofNat, nat_land_shifted_mask a k m hdvdm]
    rw [Int.ofNat_eq_natCast, Int.ofNat_eq_natCast]
    push_cast
    norm_num
  | negSucc m =>
    have hdvdm : 2 ^ a ∣ (m + 1) := by
      obtain ⟨t, ht⟩ := hdvd
      have hmt : ((m + 1 : ℕ) : ℤ) = (2:ℤ) ^ a * (-t) := by
        rw [Int.negSucc_eq] at ht
        push_cast
        linarith
      have : ((2 ^ a : ℕ) : ℤ) ∣ ((m + 1 : ℕ) : ℤ) := ⟨-t, by push_cast; push_cast at hmt; linarith⟩
      exact_mod_cast this
    have hmod : m % 2 ^ a = 2 ^ a - 1 := by
      obtain ⟨c, hc⟩ := hdvdm
      rcases c with _ | c'
      · omega
      · have h1 : m = 2 ^ a * c' + (2 ^ a - 1) := by
          have hp1 : 1 ≤ (2:ℕ) ^ a := Nat.one_le_two_pow
          have : m + 1 = 2 ^ a * c' + 2 ^ a := by rw [hc]; ring
          omega
        rw [h1, Nat.mul_add_mod]
        exact Nat.mod_eq_of_lt (by have := Nat.one_le_two_pow (n := a); omega)
    rw [hmask, int_land_negSucc_ofNat, nat_ldiff_shifted_mask a k m hmod,
      negSucc_emod m _ (by positivity)]
    have hmlt : m % 2 ^ (a + k) < 2 ^ (a + k) :=
      Nat.mod_lt _ (Nat.pos_pow_of_pos _ (by norm_num))
    rw [Int.ofNat_eq_natCast]
    push_cast [Nat.cast_sub (by omega : m % 2 ^ (a+k) ≤ 2 ^ (a+k) - 1),
      Nat.cast_sub (Nat.one_le_two_pow)]
    ring

theorem int_land_low_mask (x : ℤ) (k : ℕ) :
    Int.land x ((2:ℤ) ^ k - 1) = x % (2:ℤ) ^ k := by
  have := int_land_mask_shift x 0 k ⟨x, by ring⟩
  simpa using this

/-! ## int32 helpers -/

/-- Two's-complement wraparound into the `int32_t` range. -/
def wrap32 (x : ℤ) : ℤ := (x + 2 ^ 31) % 2 ^ 32 - 2 ^ 31

/-- Arithmetic right shift (C `>>` on a negative left operand is
implementation-defined; gcc, used by the project, shifts arithmetically,
which on integers is euclidean division by `2^n`). -/
def asr (x : ℤ) (n : ℕ) : ℤ := x >>> n

/-- Truncation toward zero, the C float-to-integer conversion. -/
def qtrunc (q : ℚ) : ℤ := if 0 ≤ q then ⌊q⌋ else -⌊-q⌋

/-- C cast of a float to `int32_t`: truncate toward zero.  Outside the
`int32_t` range the C behavior is undefined; the deployment targets (ARM)
saturate, which is what the project's own clipping test tolerance assumes. -/
def i32cast (q : ℚ) : ℤ := max (-(2 ^ 31)) (min (2 ^ 31 - 1) (qtrunc q))

theorem wrap32_eq_self {x : ℤ} (h1 : -(2 ^ 31) ≤ x) (h2 : x < 2 ^ 31) :
    wrap32 x = x := by
  have h3 : (x + 2 ^ 31) % 2 ^ 32 = x + 2 ^ 31 :=
    Int.emod_eq_of_lt (by omega) (by omega)
  rw [wrap32, h3]
  omega

theorem asr_eq_ediv (x : ℤ) (n : ℕ) : asr x n = x / 2 ^ n := by
  rw [asr, Int.shiftRight_eq_div_pow]
  norm_cast

theorem qtrunc_intCast (n : ℤ) : qtrunc (n : ℚ) = n := by
  rcases le_or_lt 0 n with h | h
  · rw [qtrunc, if_pos (by exact_mod_cast h), Int.floor_intCast]
  · rw [qtrunc, if_neg (by push_neg; exact_mod_cast h)]
    rw [show -((n:ℚ)) = (((-n : ℤ)) : ℚ) by push_cast; ring, Int.floor_intCast]
    omega

theorem i32cast_intCast {n : ℤ} (h1 : -(2 ^ 31) ≤ n) (h2 : n ≤ 2 ^ 31 - 1) :
    i32cast (n : ℚ) = n := by
  rw [i32cast, qtrunc_intCast]
  omega

/-! ## Sample conversion (src/src/sample_conversion.h)

`driver_conf::CodecFormat` from src/src/driver_config.h, and the
`SampleConverter` template's four per-sample conversion helpers plus its two
buffer-level member functions.  Buffers are modelled as total maps from word
index to value; a converter instance carries `(buffer size, format, stride,
sw channel id, hw channel start index)` exactly as the template instantiation
does. -/

/-- `driver_conf::CodecFormat` (src/src/driver_config.h lines 89-100). -/
inductive CodecFormat where
  | NONE
  | INT24_LJ
  | INT24_I2S
  | INT24_RJ
  | INT24_32RJ
  | INT32
  | BINARY
  | NUM_CODEC_FORMATS
  deriving DecidableEq, Repr

/-- `FLOAT_TO_INT24_SCALING_FACTOR = 8388607.0f` (exactly representable). -/
def FLOAT_TO_INT24_SCALING_FACTOR : ℚ := 8388607

/-- `INT24_TO_FLOAT_SCALING_FACTOR = 1.19209304e-07f`: the binary32 value of
this literal is exactly `(2^23 + 1) / 2^46` (the representable neighbour of
`1/(2^23-1)` nearest to the decimal literal). -/
def INT24_TO_FLOAT_SCALING_FACTOR : ℚ := (2 ^ 23 + 1) / 2 ^ 46

/-- `FLOAT_TO_INT32_SCALING_FACTOR = 2147483647.0f`: `2^31 - 1` is not
representable in binary32 and the literal rounds to exactly `2^31`. -/
def FLOAT_TO_INT32_SCALING_FACTOR : ℚ := 2 ^ 31

/-- `INT32_TO_FLOAT_SCALING_FACTOR = 4.656612875e-10f`: the binary32 value of
this literal is exactly `2^-31`. -/
def INT32_TO_FLOAT_SCALING_FACTOR : ℚ := 1 / 2 ^ 31

/-- `SampleConverter::_codec_format_to_int32` (lines 252-287): shift a codec
word into a sign-extended right-justified int32. -/
def codec_format_to_int32 (fmt : CodecFormat) (sample : ℤ) : ℤ :=
  match fmt with
  | .INT24_LJ => asr sample 8
  | .INT24_I2S => asr (wrap32 (sample * 2)) 8
  | .INT24_RJ => asr (wrap32 (sample * 256)) 8
  | _ => sample

/-- `SampleConverter::_int32_to_float32n` (lines 298-308): `sample * SCALE`
in C first converts the int32 to float (one rounding), then multiplies two
binary32 values (a second rounding). -/
def int32_to_float32n (fmt : CodecFormat) (sample : ℤ) : ℚ :=
  match fmt with
  | .INT32 => rne (rne (sample : ℚ) * INT32_TO_FLOAT_SCALING_FACTOR)
  | _ => rne (rne (sample : ℚ) * INT24_TO_FLOAT_SCALING_FACTOR)

/-- `SampleConverter::_int32_to_codec_format` (lines 316-338).
`0x7FFFFF80 = 2^7 * (2^24 - 1)` and `0x00FFFFFF = 2^24 - 1`. -/
def int32_to_codec_format (fmt : CodecFormat) (sample : ℤ) : ℤ :=
  match fmt with
  | .INT24_LJ => wrap32 (sample * 256)
  | .INT24_I2S => Int.land (wrap32 (sample * 128)) 2147483520
  | .INT24_RJ => Int.land sample 16777215
  | _ => sample

/-- `SampleConverter::_float32n_to_int32` (lines 348-358): binary32 multiply
by the scaling factor, then C cast to `int32_t`. -/
def float32n_to_int32 (fmt : CodecFormat) (sample : ℚ) : ℤ :=
  match fmt with
  | .INT32 => i32cast (rne (sample * FLOAT_TO_INT32_SCALING_FACTOR))
  | _ => i32cast (rne (sample * FLOAT_TO_INT24_SCALING_FACTOR))

/-- The clamp at the head of `float32n_to_codec_format`'s loop body
(lines 227-234). -/
def clampSample (x : ℚ) : ℚ := if x < -1 then -1 else if 1 < x then 1 else x

/-- One encoded output word: clamp, scale-and-truncate, pack
(loop body of `float32n_to_codec_format`, lines 225-238). -/
def encodeSample (fmt : CodecFormat) (x : ℚ) : ℤ :=
  int32_to_codec_format fmt (float32n_to_int32 fmt (clampSample x))

/-- One decoded float sample (loop body of `codec_format_to_float32n`,
lines 206-207). -/
def decodeSample (fmt : CodecFormat) (w : ℤ) : ℚ :=
  int32_to_float32n fmt (codec_format_to_int32 fmt w)

/-- `SampleConverter::codec_format_to_float32n` (lines 193-211): for each
frame `n`, read the hw word at `hw_chan_start_index + n * chan_stride` and
write the decoded float at `sw_chan_id * buffer_size + n`.  The `BINARY`
branch of the source is a bit-preserving `memcpy` between int32 and float32
words; it has no numeric counterpart on a rational-valued buffer and no claim
exercises it, so this model leaves the destination unchanged for `BINARY`. -/
def codec_format_to_float32n (fmt : CodecFormat) (buffer_size_in_frames : ℕ)
    (chan_stride : ℕ) (sw_chan_id : ℕ) (hw_chan_start_index : ℕ)
    (dst : ℕ → ℚ) (src : ℕ → ℤ) : ℕ → ℚ :=
  if fmt = .BINARY then dst else
  (List.range buffer_size_in_frames).foldl
    (fun d n => Function.update d (sw_chan_id * buffer_size_in_frames + n)
      (decodeSample fmt (src (hw_chan_start_index + n * chan_stride)))) dst

/-- `SampleConverter::float32n_to_codec_format` (lines 213-242): for each
frame `n`, read the float at `sw_chan_id * buffer_size + n`, clamp, convert,
pack, and write at `hw_chan_start_index + n * chan_stride`.  (`BINARY` as
above.) -/
def float32n_to_codec_format (fmt : CodecFormat) (buffer_size_in_frames : ℕ)
    (chan_stride : ℕ) (sw_chan_id : ℕ) (hw_chan_start_index : ℕ)
    (dst : ℕ → ℤ) (src : ℕ → ℚ) : ℕ → ℤ :=
  if fmt = .BINARY then dst else
  (List.range buffer_size_in_frames).foldl
    (fun d n => Function.update d (hw_chan_start_index + n * chan_stride)
      (encodeSample fmt (src (sw_chan_id * buffer_size_in_frames + n)))) dst

/-- A materialized `SampleConverter<buffer_size, format, stride>` instance
(the data captured by the template instantiation and constructor). -/
structure SampleConverter where
  buffer_size_in_frames : ℤ
  codec_format : CodecFormat
  chan_stride : ℤ
  sw_chan_id : ℤ
  hw_chan_start_index : ℤ
  deriving DecidableEq, Repr

/-- `GET_CONVERTER_WITH_BUFFER_SIZE` (src/src/sample_conversion.h lines
54-88): switch on the buffer size; unsupported sizes yield a null pointer. -/
def get_converter_with_buffer_size (sw_chan_id : ℤ) (buffer_size : ℤ)
    (fmt : CodecFormat) (hw_chan_start_index : ℤ) (stride : ℤ) :
    Option SampleConverter :=
  match buffer_size with
  | 8 | 16 | 32 | 48 | 64 | 128 | 192 | 256 | 512 =>
    some ⟨buffer_size, fmt, stride, sw_chan_id, hw_chan_start_index⟩
  | _ => none

/-- `GET_CONVERTER_WITH_STRIDES` (lines 90-126): switch on the stride;
unsupported strides yield a null pointer. -/
def get_converter_with_strides (sw_chan_id : ℤ) (buffer_size : ℤ)
    (fmt : CodecFormat) (hw_chan_start_index : ℤ) (stride : ℤ) :
    Option SampleConverter :=
  match stride with
  | 2 | 4 | 6 | 8 | 10 | 12 | 14 | 16 | 24 | 32 =>
    get_converter_with_buffer_size sw_chan_id buffer_size fmt
      hw_chan_start_index stride
  | _ => none

/-- `raspa::get_sample_converter` (lines 379-415): switch on the codec
format, then stride, then buffer size. -/
def get_sample_converter (sw_chan_id : ℤ) (buffer_size_in_frames : ℤ)
    (codec_format : CodecFormat) (hw_chan_start_index : ℤ) (chan_stride : ℤ) :
    Option SampleConverter :=
  match codec_format with
  | .INT24_LJ | .INT24_I2S | .INT24_RJ | .INT24_32RJ | .INT32 | .BINARY =>
    get_converter_with_strides sw_chan_id buffer_size_in_frames codec_format
      hw_chan_start_index chan_stride
  | _ => none

/-- `SUPPORTED_BUFFER_SIZES` (line 49). -/
def SUPPORTED_BUFFER_SIZES : List ℤ := [8, 16, 32, 48, 64, 128, 192, 256, 512]

/-- The strides enumerated by `GET_CONVERTER_WITH_STRIDES`. -/
def SUPPORTED_STRIDES : List ℤ := [2, 4, 6, 8, 10, 12, 14, 16, 24, 32]

/-- The six defined codec-format variants accepted by the outer switch. -/
def DEFINED_CODEC_FORMATS : List CodecFormat :=
  [.INT24_LJ, .INT24_I2S, .INT24_RJ, .INT24_32RJ, .INT32, .BINARY]

theorem get_converter_with_buffer_size_isSome (sw bs hw st : ℤ)
    (fmt : CodecFormat) :
    (get_converter_with_buffer_size sw bs fmt hw st).isSome = true ↔
      bs ∈ SUPPORTED_BUFFER_SIZES := by
  unfold get_converter_with_buffer_size
  split <;> simp_all [SUPPORTED_BUFFER_SIZES]

theorem get_converter_with_strides_isSome (sw bs hw st : ℤ)
    (fmt : CodecFormat) :
    (get_converter_with_strides sw bs fmt hw st).isSome = true ↔
      bs ∈ SUPPORTED_BUFFER_SIZES ∧ st ∈ SUPPORTED_STRIDES := by
  unfold get_converter_with_strides
  split
  all_goals simp_all [get_converter_with_buffer_size_isSome, SUPPORTED_STRIDES]

/-- C9: `get_sample_converter` returns an instance precisely for supported
buffer sizes, supported strides, and the six defined codec-format variants;
every other tuple yields none (a null converter pointer). -/
theorem get_sample_converter_isSome_iff (sw_chan_id buffer_size_in_frames
    hw_chan_start_index chan_stride : ℤ) (codec_format : CodecFormat) :
    (get_sample_converter sw_chan_id buffer_size_in_frames codec_format
      hw_chan_start_index chan_stride).isSome = true ↔
      buffer_size_in_frames ∈ SUPPORTED_BUFFER_SIZES ∧
      chan_stride ∈ SUPPORTED_STRIDES ∧
      codec_format ∈ DEFINED_CODEC_FORMATS := by
  cases codec_format <;>
    simp [get_sample_converter, get_converter_with_strides_isSome,
      DEFINED_CODEC_FORMATS, and_assoc]

/-! ## Reading back the converter's buffer writes -/

theorem foldl_update_read {α : Type} (f g : ℕ → α) (start stride : ℕ)
    (hstride : 0 < stride) (N : ℕ) (k : ℕ) (hk : k < N) :
    ((List.range N).foldl
        (fun d n => Function.update d (start + n * stride) (g n)) f)
      (start + k * stride) = g k := by
  induction N with
  | zero => omega
  | succ N ih =>
    rw [List.range_succ, List.foldl_append, List.foldl_cons, List.foldl_nil]
    rcases Nat.lt_or_ge k N with h | h
    · have hlt : k * stride < N * stride := by
        exact Nat.mul_lt_mul_of_lt_of_le h (le_refl stride) hstride
      have hne : start + k * stride ≠ start + N * stride := by omega
      rw [Function.update_noteq hne]
      exact ih h
    · have hkN : k = N := by omega
      subst hkN
      rw [Function.update_same]

theorem foldl_update_read_off {α : Type} (f g : ℕ → α) (start stride : ℕ)
    (N : ℕ) (p : ℕ) (hp : ∀ n, n < N → start + n * stride ≠ p) :
    ((List.range N).foldl
        (fun d n => Function.update d (start + n * stride) (g n)) f) p = f p := by
  induction N with
  | zero => simp
  | succ N ih =>
    rw [List.range_succ, List.foldl_append, List.foldl_cons, List.foldl_nil]
    rw [Function.update_noteq (fun h => hp N (by omega) h.symm)]
    exact ih (fun n hn => hp n (by omega))

theorem float32n_to_codec_format_read (fmt : CodecFormat) (hfmt : fmt ≠ .BINARY)
    (bufsize stride sw hw : ℕ) (hstride : 0 < stride) (dst : ℕ → ℤ)
    (src : ℕ → ℚ) (k : ℕ) (hk : k < bufsize) :
    float32n_to_codec_format fmt bufsize stride sw hw dst src
        (hw + k * stride) =
      encodeSample fmt (src (sw * bufsize + k)) := by
  rw [float32n_to_codec_format, if_neg hfmt]
  exact foldl_update_read dst
    (fun n => encodeSample fmt (src (sw * bufsize + n))) hw stride hstride
    bufsize k hk

theorem codec_format_to_float32n_read (fmt : CodecFormat) (hfmt : fmt ≠ .BINARY)
    (bufsize stride sw hw : ℕ) (dst : ℕ → ℚ) (src : ℕ → ℤ) (k : ℕ)
    (hk : k < bufsize) :
    codec_format_to_float32n fmt bufsize stride sw hw dst src
        (sw * bufsize + k) =
      decodeSample fmt (src (hw + k * stride)) := by
  rw [codec_format_to_float32n, if_neg hfmt]
  have h := foldl_update_read dst
    (fun n => decodeSample fmt (src (hw + n * stride))) (sw * bufsize) 1
    (by norm_num) bufsize k hk
  simpa using h

/-! ## Concrete binary32 rounding facts for the clamp values -/

theorem rnePos_rep {n e : ℤ} (h1 : 2 ^ 23 ≤ n) (h2 : n < 2 ^ 24) :
    rnePos ((n : ℚ) * 2 ^ (e - 23)) = (n : ℚ) * 2 ^ (e - 23) := by
  have hn0 : (0:ℚ) < (n : ℚ) := by
    have : (0:ℤ) < n := by omega
    exact_mod_cast this
  have hz0 : (0:ℚ) < (2:ℚ) ^ (e - 23) := zpow_pos (by norm_num) _
  have hq0 : (0:ℚ) < (n : ℚ) * 2 ^ (e - 23) := mul_pos hn0 hz0
  have hlow : (2:ℚ) ^ e ≤ (n : ℚ) * 2 ^ (e - 23) := by
    have hcast : ((2:ℚ) ^ 23) ≤ (n : ℚ) := by exact_mod_cast h1
    calc (2:ℚ) ^ e = 2 ^ (23 : ℤ) * 2 ^ (e - 23) := by
          rw [← zpow_add₀ (by norm_num : (2:ℚ) ≠ 0)]
          norm_num
    _ ≤ (n : ℚ) * 2 ^ (e - 23) := by
          apply mul_le_mul_of_nonneg_right _ (le_of_lt hz0)
          exact_mod_cast hcast
  have hhigh : (n : ℚ) * 2 ^ (e - 23) < 2 ^ (e + 1) := by
    have hcast : (n : ℚ) < (2:ℚ) ^ 24 := by exact_mod_cast h2
    calc (n : ℚ) * 2 ^ (e - 23) < 2 ^ (24 : ℤ) * 2 ^ (e - 23) := by
          apply mul_lt_mul_of_pos_right _ hz0
          exact_mod_cast hcast
    _ = 2 ^ (e + 1) := by
          rw [← zpow_add₀ (by norm_num : (2:ℚ) ≠ 0)]
          congr 1
          omega
  rw [rnePos_eq_of_bounds hq0 hlow hhigh]
  have harg : ((n : ℚ) * 2 ^ (e - 23)) / 2 ^ (e - 23) = (n : ℚ) :=
    mul_div_cancel_right₀ _ (ne_of_gt hz0)
  rw [harg, rhe_intCast]

theorem rne_two_pow_31 : rne ((2147483648 : ℚ)) = 2147483648 := by
  have h := rnePos_rep (n := 2 ^ 23) (e := 31) (by norm_num) (by norm_num)
  have harg : (((2:ℤ) ^ 23 : ℤ) : ℚ) * (2:ℚ) ^ ((31:ℤ) - 23) = 2147483648 := by
    push_cast
    norm_num
  rw [harg] at h
  rw [rne_of_pos (by norm_num), h]

theorem rne_8388607 : rne ((8388607 : ℚ)) = 8388607 := by
  have h := rne_intCast_abs_le (n := 8388607) (by norm_num)
  push_cast at h
  exact h

theorem rne_neg_8388607 : rne ((-8388607 : ℚ)) = -8388607 := by
  have h := rne_intCast_abs_le (n := -8388607) (by norm_num)
  push_cast at h
  exact h

theorem rne_neg_two_pow_31 : rne ((-2147483648 : ℚ)) = -2147483648 := by
  have h := rne_neg (2147483648 : ℚ)
  rw [rne_two_pow_31] at h
  exact h

/-! ## The clamp behavior of the encoder (claim C1) -/

theorem clampSample_of_gt {x : ℚ} (hx : 1 < x) : clampSample x = 1 := by
  rw [clampSample, if_neg (by linarith), if_pos hx]

theorem clampSample_of_lt {x : ℚ} (hx : x < -1) : clampSample x = -1 := by
  rw [clampSample, if_pos hx]

theorem float32n_to_int32_int24_one :
    i32cast (rne ((1 : ℚ) * FLOAT_TO_INT24_SCALING_FACTOR)) = 8388607 := by
  rw [FLOAT_TO_INT24_SCALING_FACTOR, one_mul, rne_8388607]
  have h := i32cast_intCast (n := 8388607) (by norm_num) (by norm_num)
  push_cast at h
  exact h

theorem float32n_to_int32_int24_neg_one :
    i32cast (rne ((-1 : ℚ) * FLOAT_TO_INT24_SCALING_FACTOR)) = -8388607 := by
  rw [FLOAT_TO_INT24_SCALING_FACTOR, show ((-1 : ℚ) * 8388607) = -8388607 by ring,
    rne_neg_8388607]
  have h := i32cast_intCast (n := -8388607) (by norm_num) (by norm_num)
  push_cast at h
  exact h

theorem float32n_to_int32_int32_one :
    i32cast (rne ((1 : ℚ) * FLOAT_TO_INT32_SCALING_FACTOR)) = 2147483647 := by
  rw [FLOAT_TO_INT32_SCALING_FACTOR, one_mul,
    show ((2:ℚ) ^ 31) = 2147483648 by norm_num, rne_two_pow_31]
  rw [i32cast, show ((2147483648 : ℚ)) = (((2147483648 : ℤ)) : ℚ) by norm_num,
    qtrunc_intCast]
  norm_num

theorem float32n_to_int32_int32_neg_one :
    i32cast (rne ((-1 : ℚ) * FLOAT_TO_INT32_SCALING_FACTOR)) = -2147483648 := by
  rw [FLOAT_TO_INT32_SCALING_FACTOR,
    show ((-1 : ℚ) * 2 ^ 31) = -2147483648 by norm_num, rne_neg_two_pow_31]
  have h := i32cast_intCast (n := -2147483648) (by norm_num) (by norm_num)
  push_cast at h
  exact h

/-- The value the encoder emits for any over-range positive sample,
per codec format (the attained positive clip level). -/
def codec_pos_clip (fmt : CodecFormat) : ℤ :=
  match fmt with
  | .INT24_LJ => 2147483392      -- 0x7FFFFF00
  | .INT24_I2S => 1073741696     -- 0x3FFFFF80
  | .INT24_RJ => 8388607         -- 0x007FFFFF
  | .INT24_32RJ => 8388607
  | .INT32 => 2147483647         -- 0x7FFFFFFF
  | _ => 0

/-- The value the encoder emits for any under-range negative sample,
per codec format (the attained negative clip level). -/
def codec_neg_clip (fmt : CodecFormat) : ℤ :=
  match fmt with
  | .INT24_LJ => -2147483392     -- 0x80000100 as int32
  | .INT24_I2S => 1073741952     -- 0x40000080 as int32 (sign bit cleared)
  | .INT24_RJ => 8388609         -- 0x00800001
  | .INT24_32RJ => -8388607
  | .INT32 => -2147483648        -- 0x80000000, the exact minimum
  | _ => 0

theorem encodeSample_pos_clip (fmt : CodecFormat)
    (hfmt : fmt ∈ DEFINED_CODEC_FORMATS) (hfmt2 : fmt ≠ .BINARY) {x : ℚ}
    (hx : 1 < x) : encodeSample fmt x = codec_pos_clip fmt := by
  rw [encodeSample, clampSample_of_gt hx]
  cases fmt with
  | INT24_LJ =>
    rw [show float32n_to_int32 .INT24_LJ 1 =
        i32cast (rne ((1 : ℚ) * FLOAT_TO_INT24_SCALING_FACTOR)) from rfl,
      float32n_to_int32_int24_one]
    show wrap32 (8388607 * 256) = _
    rw [wrap32_eq_self (by norm_num) (by norm_num)]
    rfl
  | INT24_I2S =>
    rw [show float32n_to_int32 .INT24_I2S 1 =
        i32cast (rne ((1 : ℚ) * FLOAT_TO_INT24_SCALING_FACTOR)) from rfl,
      float32n_to_int32_int24_one]
    show Int.land (wrap32 (8388607 * 128)) 2147483520 = _
    rw [wrap32_eq_self (by norm_num) (by norm_num)]
    have h := int_land_mask_shift (8388607 * 128) 7 24 ⟨8388607, by norm_num⟩
    norm_num at h
    exact h
  | INT24_RJ =>
    rw [show float32n_to_int32 .INT24_RJ 1 =
        i32cast (rne ((1 : ℚ) * FLOAT_TO_INT24_SCALING_FACTOR)) from rfl,
      float32n_to_int32_int24_one]
    show Int.land 8388607 16777215 = _
    have h := int_land_low_mask 8388607 24
    norm_num at h
    exact h
  | INT24_32RJ =>
    rw [show float32n_to_int32 .INT24_32RJ 1 =
        i32cast (rne ((1 : ℚ) * FLOAT_TO_INT24_SCALING_FACTOR)) from rfl,
      float32n_to_int32_int24_one]
    rfl
  | INT32 =>
    rw [show float32n_to_int32 .INT32 1 =
        i32cast (rne ((1 : ℚ) * FLOAT_TO_INT32_SCALING_FACTOR)) from rfl,
      float32n_to_int32_int32_one]
    rfl
  | BINARY => exact absurd rfl hfmt2
  | NONE => simp [DEFINED_CODEC_FORMATS] at hfmt
  | NUM_CODEC_FORMATS => simp [DEFINED_CODEC_FORMATS] at hfmt

theorem encodeSample_neg_clip (fmt : CodecFormat)
    (hfmt : fmt ∈ DEFINED_CODEC_FORMATS) (hfmt2 : fmt ≠ .BINARY) {x : ℚ}
    (hx : x < -1) : encodeSample fmt x = codec_neg_clip fmt := by
  rw [encodeSample, clampSample_of_lt hx]
  cases fmt with
  | INT24_LJ =>
    rw [show float32n_to_int32 .INT24_LJ (-1) =
        i32cast (rne ((-1 : ℚ) * FLOAT_TO_INT24_SCALING_FACTOR)) from rfl,
      float32n_to_int32_int24_neg_one]
    show wrap32 (-8388607 * 256) = _
    rw [wrap32_eq_self (by norm_num) (by norm_num)]
    rfl
  | INT24_I2S =>
    rw [show float32n_to_int32 .INT24_I2S (-1) =
        i32cast (rne ((-1 : ℚ) * FLOAT_TO_INT24_SCALING_FACTOR)) from rfl,
      float32n_to_int32_int24_neg_one]
    show Int.land (wrap32 (-8388607 * 128)) 2147483520 = _
    rw [wrap32_eq_self (by norm_num) (by norm_num)]
    have h := int_land_mask_shift (-8388607 * 128) 7 24 ⟨-8388607, by norm_num⟩
    norm_num [codec_neg_clip] at h ⊢
    exact h
  | INT24_RJ =>
    rw [show float32n_to_int32 .INT24_RJ (-1) =
        i32cast (rne ((-1 : ℚ) * FLOAT_TO_INT24_SCALING_FACTOR)) from rfl,
      float32n_to_int32_int24_neg_one]
    show Int.land (-8388607) 16777215 = _
    have h := int_land_low_mask (-8388607) 24
    norm_num at h
    rw [h]
    decide
  | INT24_32RJ =>
    rw [show float32n_to_int32 .INT24_32RJ (-1) =
        i32cast (rne ((-1 : ℚ) * FLOAT_TO_INT24_SCALING_FACTOR)) from rfl,
      float32n_to_int32_int24_neg_one]
    rfl
  | INT32 =>
    rw [show float32n_to_int32 .INT32 (-1) =
        i32cast (rne ((-1 : ℚ) * FLOAT_TO_INT32_SCALING_FACTOR)) from rfl,
      float32n_to_int32_int32_neg_one]
    rfl
  | BINARY => exact absurd rfl hfmt2
  | NONE => simp [DEFINED_CODEC_FORMATS] at hfmt
  | NUM_CODEC_FORMATS => simp [DEFINED_CODEC_FORMATS] at hfmt

/-- C1 (amended): for the 24-bit codec formats Int24Lj, Int24I2s, Int24Rj and
every supported buffer size and stride, encoding any float sample x > 1 yields
exactly the codec's representable positive maximum; encoding any x < -1 yields
exactly the codec packing of -(2^23-1), which is one LSB above the codec's
representable minimum (not the minimum itself); for Int32 the positive-side
result is 0x7FFFFFFF, within the claimed 0xFF tolerance (at least 0x7FFFFF00),
and the negative side is exactly the representable minimum -2^31.  Encoding
clamps to [-1, 1] first, then multiplies by the binary32 scaling constant and
truncates to int32. -/
theorem c1_clamping_amended (fmt : CodecFormat)
    (hfmt : fmt ∈ [CodecFormat.INT24_LJ, .INT24_I2S, .INT24_RJ, .INT32])
    (bufsize stride sw hw : ℕ)
    (hbs : (bufsize : ℤ) ∈ SUPPORTED_BUFFER_SIZES)
    (hst : (stride : ℤ) ∈ SUPPORTED_STRIDES)
    (dst : ℕ → ℤ) (src : ℕ → ℚ) (k : ℕ) (hk : k < bufsize) :
    (1 < src (sw * bufsize + k) →
      float32n_to_codec_format fmt bufsize stride sw hw dst src
          (hw + k * stride) = codec_pos_clip fmt) ∧
    (src (sw * bufsize + k) < -1 →
      float32n_to_codec_format fmt bufsize stride sw hw dst src
          (hw + k * stride) = codec_neg_clip fmt) ∧
    2147483392 ≤ codec_pos_clip CodecFormat.INT32 ∧
    codec_pos_clip CodecFormat.INT32 ≤ 2147483647 := by
  have hfmt6 : fmt ∈ DEFINED_CODEC_FORMATS := by
    fin_cases hfmt <;> simp [DEFINED_CODEC_FORMATS]
  have hfmtB : fmt ≠ .BINARY := by
    fin_cases hfmt <;> simp
  have hstride : 0 < stride := by
    simp [SUPPORTED_STRIDES] at hst
    omega
  refine ⟨?_, ?_, by norm_num [codec_pos_clip], by norm_num [codec_pos_clip]⟩
  · intro hx
    rw [float32n_to_codec_format_read fmt hfmtB bufsize stride sw hw hstride
      dst src k hk]
    exact encodeSample_pos_clip fmt hfmt6 hfmtB hx
  · intro hx
    rw [float32n_to_codec_format_read fmt hfmtB bufsize stride sw hw hstride
      dst src k hk]
    exact encodeSample_neg_clip fmt hfmt6 hfmtB hx

/-- Witness for C1 (amended) at a concrete instance: Int24Lj, buffer size 8,
stride 2, a buffer holding 2.0 everywhere; the emitted word is 0x7FFFFF00. -/
theorem c1_clamping_amended_witness :
    float32n_to_codec_format CodecFormat.INT24_LJ 8 2 0 0 (fun _ => 0)
      (fun _ => (2 : ℚ)) 0 = 2147483392 := by
  have h := (c1_clamping_amended CodecFormat.INT24_LJ (by simp) 8 2 0 0
    (by decide) (by decide) (fun _ => 0) (fun _ => (2 : ℚ)) 0 (by decide)).1
    (by norm_num)
  simpa [codec_pos_clip] using h

/-- C1 counterexample: for Int24Lj (buffer size 8, stride 2, both supported),
encoding the out-of-range sample -2.0 emits the word 0x80000100
(-2147483392 as int32), which is not the codec's representable minimum
0x80000000 (-2147483648) that the claim (and the repository's own test
constant RASPA_INT24_LJ_MIN_VALUE) calls for: the clamp saturates at
-(2^23-1), one LSB short of -2^23. -/
theorem c1_counterexample :
    float32n_to_codec_format CodecFormat.INT24_LJ 8 2 0 0 (fun _ => 0)
      (fun _ => (-2 : ℚ)) 0 = -2147483392 ∧
    (-2147483392 : ℤ) ≠ -2147483648 := by
  constructor
  · have h := float32n_to_codec_format_read CodecFormat.INT24_LJ (by decide)
      8 2 0 0 (by norm_num) (fun _ => 0) (fun _ => (-2 : ℚ)) 0 (by norm_num)
    have h2 := encodeSample_neg_clip CodecFormat.INT24_LJ (by simp [DEFINED_CODEC_FORMATS])
      (by decide) (show (-2 : ℚ) < -1 by norm_num)
    rw [h2] at h
    simpa [codec_neg_clip] using h
  · decide

/-! ## The int → float → int round trip (claim C2)

The decode multiplication `i * INT24_TO_FLOAT_SCALING_FACTOR` rounds to
`(i * 2^(23-f) + r) * 2^f / 2^46` where `2^f ≤ i < 2^(f+1)` and `r ∈ {1, 2}`
picks the nearest significand; the encode multiplication by `2^23 - 1` then
rounds back to exactly `i`.  This section proves that chain for every
`1 ≤ i ≤ 2^23 - 1` and extends it by sign symmetry. -/

/-- Writes an integer power of two as a ratio of natural powers; the
hypothesis pins the exponent arithmetic so the lemma rewrites any
syntactic form of the exponent. -/
theorem qpow_split {e : ℤ} (a b : ℕ) (h : e + (b : ℤ) = (a : ℤ)) :
    (2:ℚ) ^ e = (2:ℚ) ^ a / 2 ^ b := by
  have he : e = (a : ℤ) - (b : ℤ) := by omega
  rw [he, zpow_sub₀ (by norm_num : (2:ℚ) ≠ 0), zpow_natCast, zpow_natCast]

theorem rhe_int_add_half (n : ℤ) :
    rhe ((n : ℚ) + 1/2) = if Even n then n else n + 1 := by
  have hfl : ⌊(n : ℚ) + 1/2⌋ = n := by
    rw [Int.floor_eq_iff]
    constructor <;> push_cast <;> linarith
  have hfr : Int.fract ((n : ℚ) + 1/2) = 1/2 := by
    rw [Int.fract, hfl]
    push_cast
    ring
  rw [rhe, hfr, if_neg (by norm_num), if_neg (by norm_num), hfl]

/-- The rounded value of the decode-side multiplication, on the binade
`2^f ≤ i < 2^(f+1)`. -/
theorem decode24_eq {i : ℤ} {f : ℕ} (hf : f ≤ 22) (hi1 : 2 ^ f ≤ i)
    (hi2 : i < 2 ^ (f + 1)) :
    rne ((i : ℚ) * INT24_TO_FLOAT_SCALING_FACTOR) =
      ((i * 2 ^ (23 - f) + (if 2 * (i - 2 ^ f) < 2 ^ f then 1 else 2) : ℤ) : ℚ)
        * 2 ^ f / 2 ^ 46 := by
  have hi0 : (0:ℤ) < i := by
    have := pow_pos (show (0:ℤ) < 2 by norm_num) f
    omega
  have hiq0 : (0:ℚ) < (i:ℚ) := by exact_mod_cast hi0
  have hq0 : (0:ℚ) < (i : ℚ) * INT24_TO_FLOAT_SCALING_FACTOR := by
    rw [INT24_TO_FLOAT_SCALING_FACTOR]
    positivity
  have hfq0 : (0:ℚ) < (2:ℚ) ^ f := by positivity
  have hPQq : ((2:ℚ) ^ f) * 2 ^ (23 - f) = 2 ^ 23 := by
    rw [← pow_add]
    congr 1
    omega
  have hrw : (i : ℚ) * INT24_TO_FLOAT_SCALING_FACTOR =
      ((i * (2 ^ 23 + 1) : ℤ) : ℚ) / 2 ^ 46 := by
    rw [INT24_TO_FLOAT_SCALING_FACTOR]
    push_cast
    ring
  -- binade bounds for the product
  have hlow : (2:ℚ) ^ ((f : ℤ) - 23) ≤ (i : ℚ) * INT24_TO_FLOAT_SCALING_FACTOR := by
    rw [hrw, qpow_split f 23 (by omega), div_le_div_iff₀ (by norm_num) (by norm_num)]
    have hZ : (2:ℤ) ^ f * 2 ^ 46 ≤ i * (2 ^ 23 + 1) * 2 ^ 23 := by
      have h1 := mul_le_mul_of_nonneg_right hi1
        (show (0:ℤ) ≤ (2 ^ 23 + 1) * 2 ^ 23 by norm_num)
      nlinarith [h1, pow_pos (show (0:ℤ) < 2 by norm_num) f]
    calc ((2:ℚ) ^ f) * 2 ^ 46 = (((2:ℤ) ^ f * 2 ^ 46 : ℤ) : ℚ) := by push_cast; ring
    _ ≤ ((i * (2 ^ 23 + 1) * 2 ^ 23 : ℤ) : ℚ) := by exact_mod_cast hZ
    _ = ((i * (2 ^ 23 + 1) : ℤ) : ℚ) * 2 ^ 23 := by push_cast; ring
  have hhigh : (i : ℚ) * INT24_TO_FLOAT_SCALING_FACTOR < 2 ^ (((f : ℤ) - 23) + 1) := by
    rw [hrw, qpow_split (f + 24) 46 (by omega),
      div_lt_div_iff₀ (by norm_num) (by norm_num)]
    have hZ : i * (2 ^ 23 + 1) < 2 ^ (f + 24) := by
      have h1 : i * (2 ^ 23 + 1) ≤ (2 ^ (f + 1) - 1) * (2 ^ 23 + 1) := by
        apply mul_le_mul_of_nonneg_right (by omega) (by norm_num)
      have h2 : (2:ℤ) ^ (f + 24) = 2 ^ (f + 1) * 2 ^ 23 := by
        rw [← pow_add]
      have h3 : (2:ℤ) ^ (f + 1) ≤ 2 ^ 23 := by
        apply pow_le_pow_right₀ (by norm_num)
        omega
      nlinarith [h1, h2, h3]
    have hZ46 : i * (2 ^ 23 + 1) * 2 ^ 46 < 2 ^ (f + 24) * 2 ^ 46 := by nlinarith [hZ]
    calc ((i * (2 ^ 23 + 1) : ℤ) : ℚ) * 2 ^ 46
        = ((i * (2 ^ 23 + 1) * 2 ^ 46 : ℤ) : ℚ) := by push_cast; ring
    _ < ((2 ^ (f + 24) * 2 ^ 46 : ℤ) : ℚ) := by exact_mod_cast hZ46
    _ = (2:ℚ) ^ (f + 24) * 2 ^ 46 := by push_cast; ring
  rw [rne_of_pos hq0, rnePos_eq_of_bounds hq0 hlow hhigh]
  -- the scaled significand is N + i/2^f with N = i * 2^(23-f)
  have harg : (i : ℚ) * INT24_TO_FLOAT_SCALING_FACTOR / 2 ^ (((f : ℤ) - 23) - 23) =
      ((i * 2 ^ (23 - f) : ℤ) : ℚ) + (i : ℚ) / 2 ^ f := by
    rw [hrw, qpow_split f 46 (by omega), div_div_div_comm,
      div_self (by norm_num : ((2:ℚ) ^ 46) ≠ 0), div_one]
    have hsum : ((i * 2 ^ (23 - f) : ℤ) : ℚ) + (i : ℚ) / 2 ^ f =
        (((i * 2 ^ (23 - f) : ℤ) : ℚ) * 2 ^ f + (i : ℚ)) / 2 ^ f := by
      field_simp
    rw [hsum, div_eq_div_iff (ne_of_gt hfq0) (ne_of_gt hfq0)]
    push_cast
    linear_combination (-(i:ℚ) * 2 ^ f) * hPQq
  rw [harg]
  have hNeven : Even (i * 2 ^ (23 - f)) := by
    have h1 : (23 - f) = (22 - f) + 1 := by omega
    exact ⟨i * 2 ^ (22 - f), by rw [h1, pow_succ]; ring⟩
  have hy1 : (1:ℚ) ≤ (i : ℚ) / 2 ^ f := by
    rw [le_div_iff hfq0, one_mul]
    exact_mod_cast hi1
  have hy2 : (i : ℚ) / 2 ^ f < 2 := by
    rw [div_lt_iff hfq0]
    have : (i:ℚ) < ((2 ^ (f+1) : ℤ) : ℚ) := by exact_mod_cast hi2
    calc (i:ℚ) < ((2 ^ (f+1) : ℤ) : ℚ) := this
    _ = 2 * 2 ^ f := by push_cast; ring
  rw [rhe_even_add hNeven hy1 hy2]
  have hcond : (2 * ((i : ℚ) / 2 ^ f) < 3) ↔ (2 * (i - 2 ^ f) < 2 ^ f) := by
    rw [← mul_div_assoc, div_lt_iff₀ hfq0]
    constructor
    · intro h
      have : (2:ℚ) * i < 3 * 2 ^ f := by linarith
      have hZ : (2:ℤ) * i < 3 * 2 ^ f := by exact_mod_cast this
      omega
    · intro h
      have hZ : (2:ℤ) * i < 3 * 2 ^ f := by omega
      have : ((2 * i : ℤ) : ℚ) < ((3 * 2 ^ f : ℤ) : ℚ) := by exact_mod_cast hZ
      push_cast at this
      linarith
  have hite : (if 2 * ((i : ℚ) / 2 ^ f) < 3 then (1:ℤ) else 2) =
      (if 2 * (i - 2 ^ f) < 2 ^ f then (1:ℤ) else 2) := by
    rcases Classical.em (2 * (i - 2 ^ f) < 2 ^ f) with h | h
    · rw [if_pos h, if_pos (hcond.mpr h)]
    · rw [if_neg h, if_neg (fun hc => h (hcond.mp hc))]
  rw [hite, qpow_split f 46 (by omega)]
  push_cast
  ring

/-- The clamp is a no-op on every decoded in-range sample. -/
theorem clamp24_noop {i : ℤ} {f : ℕ} (hf : f ≤ 22) (hi1 : 2 ^ f ≤ i)
    (hitop : i ≤ 2 ^ 23 - 1) :
    clampSample (((i * 2 ^ (23 - f) +
        (if 2 * (i - 2 ^ f) < 2 ^ f then 1 else 2) : ℤ) : ℚ) * 2 ^ f / 2 ^ 46) =
      ((i * 2 ^ (23 - f) + (if 2 * (i - 2 ^ f) < 2 ^ f then 1 else 2) : ℤ) : ℚ)
        * 2 ^ f / 2 ^ 46 := by
  set r : ℤ := if 2 * (i - 2 ^ f) < 2 ^ f then 1 else 2 with hr
  have hr12 : r = 1 ∨ r = 2 := by
    rw [hr]
    rcases Classical.em (2 * (i - 2 ^ f) < 2 ^ f) with h | h
    · left; rw [if_pos h]
    · right; rw [if_neg h]
  have hPQ : (2:ℤ) ^ f * 2 ^ (23 - f) = 2 ^ 23 := by
    rw [← pow_add]
    congr 1
    omega
  have hPle : (2:ℤ) ^ f ≤ 2 ^ 22 := pow_le_pow_right₀ (by norm_num) hf
  have hvZ : (i * 2 ^ (23 - f) + r) * 2 ^ f ≤ 2 ^ 46 := by
    have h1 : i * 2 ^ (23 - f) * 2 ^ f = i * 2 ^ 23 := by
      rw [mul_assoc, mul_comm ((2:ℤ) ^ (23 - f)) (2 ^ f), hPQ]
    have h2 : i * 2 ^ 23 ≤ (2 ^ 23 - 1) * 2 ^ 23 := by
      apply mul_le_mul_of_nonneg_right hitop (by norm_num)
    have h3 : r * 2 ^ f ≤ 2 ^ 23 := by
      rcases hr12 with h | h <;> rw [h] <;> nlinarith [hPle]
    nlinarith [h1, h2, h3]
  have hpos : (0:ℚ) < ((i * 2 ^ (23 - f) + r : ℤ) : ℚ) * 2 ^ f / 2 ^ 46 := by
    have hi0 : (0:ℤ) < i := by
      have : (0:ℤ) < 2^f := by positivity
      omega
    have hnum : (0:ℤ) < i * 2 ^ (23 - f) + r := by
      have : (0:ℤ) < i * 2 ^ (23 - f) := by positivity
      rcases hr12 with h | h <;> omega
    have : (0:ℚ) < ((i * 2 ^ (23 - f) + r : ℤ) : ℚ) := by exact_mod_cast hnum
    positivity
  have hle1 : ((i * 2 ^ (23 - f) + r : ℤ) : ℚ) * 2 ^ f / 2 ^ 46 ≤ 1 := by
    rw [div_le_one (by norm_num)]
    calc ((i * 2 ^ (23 - f) + r : ℤ) : ℚ) * 2 ^ f
        = (((i * 2 ^ (23 - f) + r) * 2 ^ f : ℤ) : ℚ) := by push_cast; ring
    _ ≤ ((2 ^ 46 : ℤ) : ℚ) := by exact_mod_cast hvZ
    _ = 2 ^ 46 := by push_cast; ring
  rw [clampSample, if_neg (by linarith), if_neg (by linarith)]

/-- The encode-side multiplication rounds the decoded value back to exactly
the original integer. -/
theorem encode24_eq {i : ℤ} {f : ℕ} (hf : f ≤ 22) (hi1 : 2 ^ f ≤ i)
    (hi2 : i < 2 ^ (f + 1)) (hitop : i ≤ 2 ^ 23 - 1) :
    rne (((i * 2 ^ (23 - f) +
        (if 2 * (i - 2 ^ f) < 2 ^ f then 1 else 2) : ℤ) : ℚ) * 2 ^ f / 2 ^ 46
      * FLOAT_TO_INT24_SCALING_FACTOR) = (i : ℚ) := by
  set r : ℤ := if 2 * (i - 2 ^ f) < 2 ^ f then 1 else 2 with hr
  set m : ℤ := i - 2 ^ f with hm
  have hPpos : (0:ℤ) < 2 ^ f := by positivity
  have hPle : (2:ℤ) ^ f ≤ 2 ^ 22 := pow_le_pow_right₀ (by norm_num) hf
  have hPQ : (2:ℤ) ^ f * 2 ^ (23 - f) = 2 ^ 23 := by
    rw [← pow_add]
    congr 1
    omega
  have hm0 : 0 ≤ m := by omega
  rcases Nat.eq_zero_or_pos m.toNat with hmz | hmpos
  · -- i = 2^f exactly: the decoded value is (2^46 - 1) * 2^f / 2^46
    have hieq : i = 2 ^ f := by omega
    have hreq : r = 1 := by
      rw [hr, if_pos (by omega)]
    have hIntEq : (i * 2 ^ (23 - f) + r) * 8388607 = 2 ^ 46 - 1 := by
      rw [hieq, hreq, hPQ]
      norm_num
    have hval : ((i * 2 ^ (23 - f) + r : ℤ) : ℚ) * 2 ^ f / 2 ^ 46
        * FLOAT_TO_INT24_SCALING_FACTOR =
        (((2:ℤ) ^ 46 - 1 : ℤ) : ℚ) * 2 ^ f / 2 ^ 46 := by
      rw [FLOAT_TO_INT24_SCALING_FACTOR]
      have hstep : ((i * 2 ^ (23 - f) + r : ℤ) : ℚ) * 2 ^ f / 2 ^ 46 * 8388607 =
          (((i * 2 ^ (23 - f) + r) * 8388607 : ℤ) : ℚ) * 2 ^ f / 2 ^ 46 := by
        push_cast
        ring
      rw [hstep, hIntEq]
    rw [hval]
    have hq0 : (0:ℚ) < (((2:ℤ) ^ 46 - 1 : ℤ) : ℚ) * 2 ^ f / 2 ^ 46 := by
      have h1 : (0:ℚ) < (((2:ℤ) ^ 46 - 1 : ℤ) : ℚ) := by norm_num
      positivity
    have hlow : (2:ℚ) ^ (((f:ℕ) : ℤ) - 1) ≤
        (((2:ℤ) ^ 46 - 1 : ℤ) : ℚ) * 2 ^ f / 2 ^ 46 := by
      rw [qpow_split f 1 (by omega), div_le_div_iff₀ (by norm_num) (by norm_num)]
      push_cast
      nlinarith [pow_pos (show (0:ℚ) < 2 by norm_num) f]
    have hhigh : (((2:ℤ) ^ 46 - 1 : ℤ) : ℚ) * 2 ^ f / 2 ^ 46 <
        2 ^ ((((f:ℕ) : ℤ) - 1) + 1) := by
      rw [show (((f:ℕ) : ℤ) - 1) + 1 = ((f:ℕ) : ℤ) by ring, zpow_natCast,
        div_lt_iff (by norm_num)]
      push_cast
      nlinarith [pow_pos (show (0:ℚ) < 2 by norm_num) f]
    rw [rne_of_pos hq0, rnePos_eq_of_bounds hq0 hlow hhigh]
    have harg : (((2:ℤ) ^ 46 - 1 : ℤ) : ℚ) * 2 ^ f / 2 ^ 46 /
        2 ^ ((((f:ℕ) : ℤ) - 1) - 23) = (2:ℚ) ^ 24 - 2 ^ 46 / 2 ^ 68 := by
      rw [qpow_split f 24 (by omega)]
      field_simp
      ring
    rw [harg]
    have hrhe : rhe ((2:ℚ) ^ 24 - 2 ^ 46 / 2 ^ 68) = 2 ^ 24 := by
      apply rhe_eq_of_abs_sub_lt
      rw [abs_sub_lt_iff]
      constructor <;> push_cast <;> norm_num
    rw [hrhe, qpow_split f 24 (by omega), hieq]
    push_cast
    field_simp
    ring
  · -- 1 ≤ m: the product lies within half an ulp of i inside i's own binade
    have hm1 : 1 ≤ m := by omega
    have hf1 : 1 ≤ f := by
      by_contra hc
      push_neg at hc
      interval_cases f
      omega
    have hPev : (2:ℤ) ∣ 2 ^ f := dvd_pow_self 2 (by omega)
    have hr12 : r = 1 ∨ r = 2 := by
      rw [hr]
      rcases Classical.em (2 * (i - 2 ^ f) < 2 ^ f) with h | h
      · left; rw [if_pos h]
      · right; rw [if_neg h]
    -- the integer-scaled error
    have hZ : (i * 2 ^ (23 - f) + r) * 2 ^ f * (2 ^ 23 - 1) - i * 2 ^ 46 =
        2 ^ 23 * (r * 2 ^ f - i) - r * 2 ^ f := by
      linear_combination ((2 ^ 23 - 1) * i) * hPQ
    have hbound : |2 ^ 23 * (r * 2 ^ f - i) - r * 2 ^ f| < 2 ^ 22 * 2 ^ f := by
      rcases hr12 with hrc | hrc
      · have hcase : 2 * m < 2 ^ f := by
          rw [hr] at hrc
          by_contra hc
          push_neg at hc
          rw [if_neg (by omega)] at hrc
          omega
        rw [hrc, abs_lt]
        constructor <;> omega
      · have hcase : 2 ^ f ≤ 2 * m := by
          rw [hr] at hrc
          by_contra hc
          push_neg at hc
          rw [if_pos (by omega)] at hrc
          omega
        rw [hrc, abs_lt]
        constructor <;> omega
    -- the rational error bound
    have htmi : ((i * 2 ^ (23 - f) + r : ℤ) : ℚ) * 2 ^ f / 2 ^ 46
        * FLOAT_TO_INT24_SCALING_FACTOR - (i : ℚ) =
        ((2 ^ 23 * (r * 2 ^ f - i) - r * 2 ^ f : ℤ) : ℚ) / 2 ^ 46 := by
      rw [FLOAT_TO_INT24_SCALING_FACTOR, ← hZ]
      push_cast
      field_simp
      ring
    set t : ℚ := ((i * 2 ^ (23 - f) + r : ℤ) : ℚ) * 2 ^ f / 2 ^ 46
      * FLOAT_TO_INT24_SCALING_FACTOR with ht
    have herr : |t - (i : ℚ)| < ((2:ℚ) ^ f) / 2 ^ 24 := by
      rw [htmi, abs_div, abs_of_pos (show (0:ℚ) < 2 ^ 46 by norm_num),
        div_lt_div_iff (by norm_num) (by norm_num : (0:ℚ) < 2 ^ 24)]
      have hcast : |((2 ^ 23 * (r * 2 ^ f - i) - r * 2 ^ f : ℤ) : ℚ)| <
          ((2 ^ 22 * 2 ^ f : ℤ) : ℚ) := by
        rw [← Int.cast_abs]
        exact_mod_cast hbound
      calc |((2 ^ 23 * (r * 2 ^ f - i) - r * 2 ^ f : ℤ) : ℚ)| * 2 ^ 24
          < ((2 ^ 22 * 2 ^ f : ℤ) : ℚ) * 2 ^ 24 := by
            apply mul_lt_mul_of_pos_right hcast (by norm_num)
      _ = 2 ^ f * 2 ^ 46 := by push_cast; ring
    have hsmall : ((2:ℚ) ^ f) / 2 ^ 24 < 1 := by
      rw [div_lt_one (by norm_num)]
      have : ((2:ℤ) ^ f : ℚ) ≤ ((2 ^ 22 : ℤ) : ℚ) := by exact_mod_cast hPle
      push_cast at this
      nlinarith [this]
    -- t sits in the binade of i
    have hiP : (2:ℤ) ^ f + 1 ≤ i := by omega
    have hlowt : (2:ℚ) ^ (((f:ℕ) : ℤ)) ≤ t := by
      rw [zpow_natCast]
      have h1 : (i : ℚ) - ((2:ℚ) ^ f) / 2 ^ 24 ≤ t := by
        have := abs_lt.mp herr
        linarith [this.1]
      have h2 : ((2:ℚ) ^ f) + 1 ≤ (i : ℚ) := by
        have : (((2:ℤ) ^ f + 1 : ℤ) : ℚ) ≤ (i : ℚ) := by exact_mod_cast hiP
        push_cast at this
        linarith
      linarith
    have hhight : t < 2 ^ ((((f:ℕ) : ℤ)) + 1) := by
      rw [show (((f:ℕ) : ℤ)) + 1 = (((f + 1 : ℕ)) : ℤ) by push_cast; ring,
        zpow_natCast]
      have h1 : t ≤ (i : ℚ) + ((2:ℚ) ^ f) / 2 ^ 24 := by
        have := abs_lt.mp herr
        linarith [this.2]
      have h2 : (i : ℚ) ≤ ((2:ℚ) ^ (f + 1)) - 1 := by
        have : (i : ℚ) ≤ (((2:ℤ) ^ (f+1) - 1 : ℤ) : ℚ) := by exact_mod_cast (by omega : i ≤ 2^(f+1) - 1)
        push_cast at this
        linarith
      linarith
    have ht0 : (0:ℚ) < t := by
      have : (0:ℚ) < (2:ℚ) ^ (((f:ℕ)) : ℤ) := by positivity
      linarith
    rw [rne_of_pos ht0, rnePos_eq_of_bounds ht0 hlowt hhight]
    -- round the scaled significand to i * 2^(23-f)
    have hnq : ((i * 2 ^ (23 - f) : ℤ) : ℚ) = (i : ℚ) * 2 ^ 23 / 2 ^ f := by
      rw [eq_div_iff (by positivity : ((2:ℚ) ^ f) ≠ 0)]
      have hq23 : ((2:ℚ) ^ f) * 2 ^ (23 - f) = 2 ^ 23 := by
        rw [← pow_add]
        congr 1
        omega
      push_cast
      linear_combination (i:ℚ) * hq23
    have harg : t / 2 ^ ((((f:ℕ)) : ℤ) - 23) = t * 2 ^ 23 / 2 ^ f := by
      rw [qpow_split f 23 (by omega)]
      field_simp
    rw [harg]
    have hrhe : rhe (t * 2 ^ 23 / 2 ^ f) = i * 2 ^ (23 - f) := by
      apply rhe_eq_of_abs_sub_lt
      rw [hnq]
      have hsc : t * 2 ^ 23 / 2 ^ f - (i : ℚ) * 2 ^ 23 / 2 ^ f =
          (t - (i : ℚ)) * (2 ^ 23 / 2 ^ f) := by ring
      rw [hsc, abs_mul, abs_of_pos (show (0:ℚ) < 2 ^ 23 / 2 ^ f by positivity)]
      calc |t - (i:ℚ)| * (2 ^ 23 / 2 ^ f)
          < (((2:ℚ) ^ f) / 2 ^ 24) * (2 ^ 23 / 2 ^ f) := by
            apply mul_lt_mul_of_pos_right herr (by positivity)
      _ = 1/2 := by
            field_simp
            ring
    rw [hrhe, qpow_split f 23 (by omega), ← mul_div_assoc,
      div_eq_iff (by norm_num : ((2:ℚ) ^ 23) ≠ 0)]
    have hq23 : ((2:ℚ) ^ f) * 2 ^ (23 - f) = 2 ^ 23 := by
      rw [← pow_add]
      congr 1
      omega
    push_cast
    linear_combination (i:ℚ) * hq23

theorem exists_binade {i : ℤ} (h1 : 1 ≤ i) (h2 : i ≤ 2 ^ 23 - 1) :
    ∃ f : ℕ, f ≤ 22 ∧ 2 ^ f ≤ i ∧ i < 2 ^ (f + 1) := by
  set n := i.toNat with hn
  have hin : i = (n : ℤ) := by omega
  have hn1 : 1 ≤ n := by omega
  have hlog1 : 2 ^ (Nat.log 2 n) ≤ n := Nat.pow_log_le_self 2 (by omega)
  have hlog2 : n < 2 ^ (Nat.log 2 n + 1) :=
    Nat.lt_pow_succ_log_self (by norm_num) n
  refine ⟨Nat.log 2 n, ?_, ?_, ?_⟩
  · by_contra hc
    push_neg at hc
    have h23 : (2:ℕ) ^ 23 ≤ 2 ^ (Nat.log 2 n) :=
      Nat.pow_le_pow_right (by norm_num) (by omega)
    have : (2:ℕ) ^ 23 ≤ n := le_trans h23 hlog1
    omega
  · rw [hin]
    exact_mod_cast hlog1
  · rw [hin]
    exact_mod_cast hlog2

/-- The decoded value of an in-range positive sample encodes back exactly. -/
theorem roundtrip24_val_pos {i : ℤ} (h1 : 1 ≤ i) (h2 : i ≤ 2 ^ 23 - 1) :
    rne (clampSample (rne ((i : ℚ) * INT24_TO_FLOAT_SCALING_FACTOR))
      * FLOAT_TO_INT24_SCALING_FACTOR) = (i : ℚ) := by
  obtain ⟨f, hf, hb1, hb2⟩ := exists_binade h1 h2
  rw [decode24_eq hf hb1 hb2, clamp24_noop hf hb1 h2, encode24_eq hf hb1 hb2 h2]

theorem clampSample_neg (x : ℚ) : clampSample (-x) = -clampSample x := by
  by_cases h1 : x < -1
  · rw [clampSample, clampSample, if_pos h1,
      if_neg (by linarith : ¬ (-x < -1)), if_pos (by linarith : (1:ℚ) < -x)]
    norm_num
  · by_cases h2 : 1 < x
    · rw [clampSample, clampSample, if_neg h1, if_pos h2,
        if_pos (by linarith : -x < -1)]
    · rw [clampSample, clampSample, if_neg h1, if_neg h2,
        if_neg (by push_neg at h2; linarith : ¬ (-x < -1)),
        if_neg (by push_neg at h1; linarith : ¬ ((1:ℚ) < -x))]

theorem clampSample_of_mem {x : ℚ} (h1 : -1 ≤ x) (h2 : x ≤ 1) :
    clampSample x = x := by
  rw [clampSample, if_neg (by linarith), if_neg (by linarith)]

theorem roundtrip24_val {i : ℤ} (h : |i| ≤ 2 ^ 23 - 1) :
    rne (clampSample (rne ((i : ℚ) * INT24_TO_FLOAT_SCALING_FACTOR))
      * FLOAT_TO_INT24_SCALING_FACTOR) = (i : ℚ) := by
  rcases lt_trichotomy i 0 with hc | hc | hc
  · have h1 : 1 ≤ -i := by omega
    have h2 : -i ≤ 2 ^ 23 - 1 := by
      rw [abs_of_neg hc] at h
      omega
    have hpos := roundtrip24_val_pos h1 h2
    have hflip : (i : ℚ) * INT24_TO_FLOAT_SCALING_FACTOR =
        -(((-i : ℤ) : ℚ) * INT24_TO_FLOAT_SCALING_FACTOR) := by
      push_cast
      ring
    rw [hflip, rne_neg, clampSample_neg, neg_mul, rne_neg, hpos]
    push_cast
    ring
  · subst hc
    have hz : ((0 : ℤ) : ℚ) * INT24_TO_FLOAT_SCALING_FACTOR = 0 := by norm_num
    rw [hz, rne_zero, clampSample_of_mem (by norm_num) (by norm_num), zero_mul,
      rne_zero]
    norm_num
  · exact roundtrip24_val_pos (by omega) (by rw [abs_of_pos hc] at h; omega)

/-- The full float32 decode / clamp / encode chain is the identity on every
24-bit sample of magnitude at most `2^23 - 1`. -/
theorem sample_roundtrip_core {i : ℤ} (h : |i| ≤ 2 ^ 23 - 1) :
    i32cast (rne (clampSample (rne (rne ((i : ℚ)) * INT24_TO_FLOAT_SCALING_FACTOR))
      * FLOAT_TO_INT24_SCALING_FACTOR)) = i := by
  have hb := abs_le.mp h
  rw [rne_intCast_abs_le (by omega : |i| ≤ 2 ^ 24), roundtrip24_val h,
    i32cast_intCast (by omega) (by omega)]

/-- An int32 word the codec format can carry: one that survives the
pack / unpack roundtrip (the image of the codec packing for the 24-bit
formats; every int32 word for Int32). -/
def is_representable_codec_word (fmt : CodecFormat) (w : ℤ) : Prop :=
  -(2 ^ 31) ≤ w ∧ w < 2 ^ 31 ∧
    int32_to_codec_format fmt (codec_format_to_int32 fmt w) = w

/-- Per-sample int → float → int identity for the 24-bit codec formats. -/
theorem sample_roundtrip24 (fmt : CodecFormat)
    (hfmt : fmt ∈ [CodecFormat.INT24_LJ, .INT24_I2S, .INT24_RJ, .INT24_32RJ])
    {w : ℤ} (hrep : is_representable_codec_word fmt w)
    (hdec : |codec_format_to_int32 fmt w| ≤ 2 ^ 23 - 1) :
    encodeSample fmt (decodeSample fmt w) = w := by
  obtain ⟨h1, h2, hfix⟩ := hrep
  fin_cases hfmt
  · show int32_to_codec_format CodecFormat.INT24_LJ (i32cast (rne (clampSample
      (rne (rne ((codec_format_to_int32 CodecFormat.INT24_LJ w : ℤ) : ℚ)
        * INT24_TO_FLOAT_SCALING_FACTOR)) * FLOAT_TO_INT24_SCALING_FACTOR))) = w
    rw [sample_roundtrip_core hdec]
    exact hfix
  · show int32_to_codec_format CodecFormat.INT24_I2S (i32cast (rne (clampSample
      (rne (rne ((codec_format_to_int32 CodecFormat.INT24_I2S w : ℤ) : ℚ)
        * INT24_TO_FLOAT_SCALING_FACTOR)) * FLOAT_TO_INT24_SCALING_FACTOR))) = w
    rw [sample_roundtrip_core hdec]
    exact hfix
  · show int32_to_codec_format CodecFormat.INT24_RJ (i32cast (rne (clampSample
      (rne (rne ((codec_format_to_int32 CodecFormat.INT24_RJ w : ℤ) : ℚ)
        * INT24_TO_FLOAT_SCALING_FACTOR)) * FLOAT_TO_INT24_SCALING_FACTOR))) = w
    rw [sample_roundtrip_core hdec]
    exact hfix
  · show int32_to_codec_format CodecFormat.INT24_32RJ (i32cast (rne (clampSample
      (rne (rne ((codec_format_to_int32 CodecFormat.INT24_32RJ w : ℤ) : ℚ)
        * INT24_TO_FLOAT_SCALING_FACTOR)) * FLOAT_TO_INT24_SCALING_FACTOR))) = w
    rw [sample_roundtrip_core hdec]
    exact hfix

/-- C2 (amended): for the 24-bit codec formats and every supported buffer size
and stride, decoding a buffer of representable codec words whose decoded
samples have magnitude at most `2^23 - 1` and re-encoding it reproduces the
original integer buffer bit-exactly (at every word of the buffer).  The
exclusions are forced: the most negative 24-bit code (decoded value `-2^23`)
comes back one LSB short, and Int32 words with more than 24 significant bits
collapse in the int-to-float conversion. -/
theorem c2_roundtrip_amended (fmt : CodecFormat)
    (hfmt : fmt ∈ [CodecFormat.INT24_LJ, .INT24_I2S, .INT24_RJ, .INT24_32RJ])
    (bufsize stride sw hw : ℕ)
    (hbs : (bufsize : ℤ) ∈ SUPPORTED_BUFFER_SIZES)
    (hst : (stride : ℤ) ∈ SUPPORTED_STRIDES)
    (src : ℕ → ℤ) (flt : ℕ → ℚ)
    (hrep : ∀ n, n < bufsize →
      is_representable_codec_word fmt (src (hw + n * stride)) ∧
      |codec_format_to_int32 fmt (src (hw + n * stride))| ≤ 2 ^ 23 - 1) :
    ∀ p, float32n_to_codec_format fmt bufsize stride sw hw src
      (codec_format_to_float32n fmt bufsize stride sw hw flt src) p = src p := by
  intro p
  have hfmtB : fmt ≠ .BINARY := by fin_cases hfmt <;> simp
  have hstride : 0 < stride := by
    simp [SUPPORTED_STRIDES] at hst
    omega
  by_cases hp : ∃ k, k < bufsize ∧ p = hw + k * stride
  · obtain ⟨k, hk, rfl⟩ := hp
    rw [float32n_to_codec_format_read fmt hfmtB bufsize stride sw hw hstride
      src _ k hk,
      codec_format_to_float32n_read fmt hfmtB bufsize stride sw hw flt src k hk]
    exact sample_roundtrip24 fmt hfmt (hrep k hk).1 (hrep k hk).2
  · push_neg at hp
    rw [float32n_to_codec_format, if_neg hfmtB]
    exact foldl_update_read_off src
      (fun n => encodeSample fmt ((codec_format_to_float32n fmt bufsize stride
        sw hw flt src) (sw * bufsize + n))) hw stride bufsize p
      (fun n hn heq => hp n hn heq.symm)

/-- Witness for C2 (amended): a concrete Int24In32Rj buffer round-trips. -/
theorem c2_roundtrip_amended_witness :
    float32n_to_codec_format CodecFormat.INT24_32RJ 8 2 0 0 (fun _ => (5:ℤ))
      (codec_format_to_float32n CodecFormat.INT24_32RJ 8 2 0 0 (fun _ => 0)
        (fun _ => (5:ℤ))) 0 = 5 := by
  refine c2_roundtrip_amended CodecFormat.INT24_32RJ (by simp) 8 2 0 0
    (by decide) (by decide) (fun _ => (5:ℤ)) (fun _ => 0) ?_ 0
  intro n hn
  refine ⟨⟨?_, ?_, rfl⟩, ?_⟩
  · show -(2:ℤ) ^ 31 ≤ 5
    norm_num
  · show (5:ℤ) < 2 ^ 31
    norm_num
  · show |(5:ℤ)| ≤ 2 ^ 23 - 1
    norm_num

theorem rne_one_plus_eps : rne ((8388609 : ℚ)/8388608) = 8388609/8388608 := by
  have h := rnePos_rep (n := 8388609) (e := 0) (by norm_num) (by norm_num)
  have harg : ((8388609:ℤ):ℚ) * 2 ^ ((0:ℤ) - 23) = 8388609/8388608 := by
    rw [qpow_split 0 23 (by norm_num)]
    push_cast
    norm_num
  rw [harg] at h
  rw [rne_of_pos (by norm_num), h]

theorem rne_inv128 : rne ((1:ℚ)/128) = 1/128 := by
  have h := rnePos_rep (n := 2 ^ 23) (e := -7) (by norm_num) (by norm_num)
  have harg : (((2:ℤ) ^ 23 : ℤ):ℚ) * 2 ^ ((-7:ℤ) - 23) = 1/128 := by
    rw [qpow_split 0 30 (by norm_num)]
    push_cast
    norm_num
  rw [harg] at h
  rw [rne_of_pos (by norm_num), h]

/-- `2^24 + 1` has 25 significant bits and rounds to `2^24` (tie to even). -/
theorem rne_16777217 : rne ((16777217:ℚ)) = 16777216 := by
  have h0 : (0:ℚ) < 16777217 := by norm_num
  have hlow : (2:ℚ) ^ ((24:ℤ)) ≤ 16777217 := by
    rw [qpow_split 24 0 (by norm_num)]
    norm_num
  have hhigh : (16777217:ℚ) < 2 ^ ((24:ℤ) + 1) := by
    rw [qpow_split 25 0 (by norm_num)]
    norm_num
  rw [rne_of_pos h0, rnePos_eq_of_bounds h0 hlow hhigh]
  have harg : (16777217:ℚ) / 2 ^ ((24:ℤ) - 23) = ((8388608:ℤ):ℚ) + 1/2 := by
    rw [qpow_split 1 0 (by norm_num)]
    push_cast
    norm_num
  rw [harg, rhe_int_add_half, if_pos (by decide : Even (8388608:ℤ)),
    qpow_split 1 0 (by norm_num)]
  push_cast
  norm_num

theorem rne_16777216 : rne ((16777216:ℚ)) = 16777216 := by
  have h := rne_intCast_abs_le (n := 16777216) (by norm_num)
  push_cast at h
  exact h

theorem decodeSample_32rj_min :
    decodeSample CodecFormat.INT24_32RJ (-8388608) = -(8388609/8388608 : ℚ) := by
  show rne (rne (((-8388608 : ℤ) : ℚ)) * INT24_TO_FLOAT_SCALING_FACTOR) = _
  rw [show ((-8388608:ℤ):ℚ) = -8388608 by norm_num]
  have hsmall : rne ((-8388608:ℚ)) = -8388608 := by
    have h := rne_intCast_abs_le (n := -8388608) (by norm_num)
    push_cast at h
    exact h
  rw [hsmall, show (-8388608:ℚ) * INT24_TO_FLOAT_SCALING_FACTOR
      = -((8388609:ℚ)/8388608) by rw [INT24_TO_FLOAT_SCALING_FACTOR]; norm_num,
    rne_neg, rne_one_plus_eps]

theorem encodeSample_32rj_min :
    encodeSample CodecFormat.INT24_32RJ (-(8388609/8388608 : ℚ)) = -8388607 := by
  rw [encodeSample, clampSample_of_lt (by norm_num : -(8388609/8388608:ℚ) < -1)]
  show i32cast (rne ((-1:ℚ) * FLOAT_TO_INT24_SCALING_FACTOR)) = -8388607
  exact float32n_to_int32_int24_neg_one

theorem decodeSample_int32_collapse :
    decodeSample CodecFormat.INT32 16777217 = 1/128 := by
  show rne (rne (((16777217 : ℤ) : ℚ)) * INT32_TO_FLOAT_SCALING_FACTOR) = _
  rw [show ((16777217:ℤ):ℚ) = 16777217 by norm_num, rne_16777217,
    show (16777216:ℚ) * INT32_TO_FLOAT_SCALING_FACTOR = 1/128 by
      rw [INT32_TO_FLOAT_SCALING_FACTOR]; norm_num,
    rne_inv128]

theorem encodeSample_int32_collapse :
    encodeSample CodecFormat.INT32 (1/128 : ℚ) = 16777216 := by
  rw [encodeSample, clampSample_of_mem (by norm_num) (by norm_num)]
  show i32cast (rne ((1/128 : ℚ) * FLOAT_TO_INT32_SCALING_FACTOR)) = 16777216
  rw [show (1/128:ℚ) * FLOAT_TO_INT32_SCALING_FACTOR = 16777216 by
      rw [FLOAT_TO_INT32_SCALING_FACTOR]; norm_num,
    rne_16777216]
  have h := i32cast_intCast (n := 16777216) (by norm_num) (by norm_num)
  push_cast at h
  exact h

/-- C2 counterexample: the int → float → int roundtrip is not bit-exact for
every representable codec integer.  (a) For Int24In32Rj the most negative
code -2^23 = -8388608 (a representable sign-extended 24-bit value, identity
packing) decodes to -(1 + 2^-23), is clamped to -1.0 on re-encode, and comes
back as -8388607.  (b) For Int32 the representable word 2^24 + 1 loses its
last bit in the int-to-float32 conversion and comes back as 2^24.  Both are
shown on concrete buffers with supported size 8 and stride 2. -/
theorem c2_counterexample :
    (is_representable_codec_word CodecFormat.INT24_32RJ (-8388608) ∧
     float32n_to_codec_format CodecFormat.INT24_32RJ 8 2 0 0
       (fun _ => (-8388608:ℤ))
       (codec_format_to_float32n CodecFormat.INT24_32RJ 8 2 0 0 (fun _ => 0)
         (fun _ => (-8388608:ℤ))) 0 = -8388607 ∧
     (-8388607 : ℤ) ≠ -8388608) ∧
    (is_representable_codec_word CodecFormat.INT32 16777217 ∧
     float32n_to_codec_format CodecFormat.INT32 8 2 0 0
       (fun _ => (16777217:ℤ))
       (codec_format_to_float32n CodecFormat.INT32 8 2 0 0 (fun _ => 0)
         (fun _ => (16777217:ℤ))) 0 = 16777216 ∧
     (16777216 : ℤ) ≠ 16777217) := by
  constructor
  · refine ⟨⟨by norm_num, by norm_num, rfl⟩, ?_, by norm_num⟩
    have h := float32n_to_codec_format_read CodecFormat.INT24_32RJ (by decide)
      8 2 0 0 (by norm_num) (fun _ => (-8388608:ℤ))
      (codec_format_to_float32n CodecFormat.INT24_32RJ 8 2 0 0 (fun _ => 0)
        (fun _ => (-8388608:ℤ))) 0 (by norm_num)
    rw [codec_format_to_float32n_read CodecFormat.INT24_32RJ (by decide)
      8 2 0 0 (fun _ => 0) (fun _ => (-8388608:ℤ)) 0 (by norm_num)] at h
    simp only [decodeSample_32rj_min, encodeSample_32rj_min] at h
    simpa using h
  · refine ⟨⟨by norm_num, by norm_num, rfl⟩, ?_, by norm_num⟩
    have h := float32n_to_codec_format_read CodecFormat.INT32 (by decide)
      8 2 0 0 (by norm_num) (fun _ => (16777217:ℤ))
      (codec_format_to_float32n CodecFormat.INT32 8 2 0 0 (fun _ => 0)
        (fun _ => (16777217:ℤ))) 0 (by norm_num)
    rw [codec_format_to_float32n_read CodecFormat.INT32 (by decide)
      8 2 0 0 (fun _ => 0) (fun _ => (16777217:ℤ)) 0 (by norm_num)] at h
    simp only [decodeSample_int32_collapse, encodeSample_int32_collapse] at h
    simpa using h

/-! ## The delay-error filter (src/src/raspa_delay_error_filter.h,
src/src/delay_error_filter.c)

The filter state and tick are modelled over any linear ordered field with a
floor (instantiated at ℝ for the transcendental coefficient derivation and at
ℚ for executable witnesses); float roundoff within the tick is abstracted,
which does not affect the structural properties claimed. -/

/-- The five coefficients, two state words and cached sampling period of
`RaspaDelayErrorFilter` / the `_filter` struct of delay_error_filter.c. -/
structure DelayErrorFilter (α : Type) where
  b0 : α
  b1 : α
  b2 : α
  a1 : α
  a2 : α
  z1 : α
  z2 : α
  sampling_period_nanosec : α
  deriving Repr

/-- `RaspaDelayErrorFilter::RaspaDelayErrorFilter(T60_in_periods,
sampling_freq)` (src/src/raspa_delay_error_filter.h lines 38-57), identical
to `initialize_delay_error_filter` (src/src/delay_error_filter.c lines
40-60). -/
noncomputable def initialize_delay_error_filter (T60_in_periods sampling_freq : ℝ) :
    DelayErrorFilter ℝ :=
  let omega := Real.log 1000 / T60_in_periods
  let alpha := Real.sin omega
  let comega := Real.cos omega
  let a0 := 1 + alpha
  { b0 := 0.5 * (1 - comega) / a0
    b1 := (1 - comega) / a0
    b2 := 0.5 * (1 - comega) / a0
    a1 := -2 * comega / a0
    a2 := (1 - alpha) / a0
    z1 := 0
    z2 := 0
    sampling_period_nanosec := 1.0e9 / sampling_freq }

/-- `delay_error_filter_tick` (src/src/raspa_delay_error_filter.h lines
66-76; src/src/delay_error_filter.c lines 62-75): one biquad step; the
return value is the filtered output scaled to nanoseconds and rounded
(`lrintf`), not `round(y)` itself. -/
def delay_error_filter_tick {α : Type} [LinearOrderedField α] [FloorRing α]
    (fs : DelayErrorFilter α) (delay_in_frames : ℤ) : ℤ × DelayErrorFilter α :=
  let x : α := (delay_in_frames : ℤ)
  let y := fs.b0 * x + fs.z1
  (round (y * fs.sampling_period_nanosec),
   { fs with z1 := fs.b1 * x - fs.a1 * y + fs.z2
             z2 := fs.b2 * x - fs.a2 * y })

/-- C7 (amended): one tick computes y = b0·x + z1, updates
z1 = b1·x − a1·y + z2 and z2 = b2·x − a2·y, and returns
round(y · sampling_period_ns) with sampling_period_ns = 10⁹/sampling_freq —
not round(y); the coefficients come from T60 by ω = ln(1000)/T60, α = sin ω,
c = cos ω, a0 = 1 + α, b0 = b2 = 0.5(1−c)/a0, b1 = (1−c)/a0, a1 = −2c/a0,
a2 = (1−α)/a0, and the freshly constructed filter has state (0, 0). -/
theorem c7_filter_tick_amended (T60_in_periods sampling_freq : ℝ) (x : ℤ)
    (z1 z2 : ℝ) :
    (initialize_delay_error_filter T60_in_periods sampling_freq).z1 = 0 ∧
    (initialize_delay_error_filter T60_in_periods sampling_freq).z2 = 0 ∧
    (initialize_delay_error_filter T60_in_periods sampling_freq).b0 =
      0.5 * (1 - Real.cos (Real.log 1000 / T60_in_periods)) /
        (1 + Real.sin (Real.log 1000 / T60_in_periods)) ∧
    (initialize_delay_error_filter T60_in_periods sampling_freq).b1 =
      (1 - Real.cos (Real.log 1000 / T60_in_periods)) /
        (1 + Real.sin (Real.log 1000 / T60_in_periods)) ∧
    (initialize_delay_error_filter T60_in_periods sampling_freq).b2 =
      0.5 * (1 - Real.cos (Real.log 1000 / T60_in_periods)) /
        (1 + Real.sin (Real.log 1000 / T60_in_periods)) ∧
    (initialize_delay_error_filter T60_in_periods sampling_freq).a1 =
      -2 * Real.cos (Real.log 1000 / T60_in_periods) /
        (1 + Real.sin (Real.log 1000 / T60_in_periods)) ∧
    (initialize_delay_error_filter T60_in_periods sampling_freq).a2 =
      (1 - Real.sin (Real.log 1000 / T60_in_periods)) /
        (1 + Real.sin (Real.log 1000 / T60_in_periods)) ∧
    (initialize_delay_error_filter T60_in_periods sampling_freq).sampling_period_nanosec =
      1.0e9 / sampling_freq ∧
    delay_error_filter_tick
      { initialize_delay_error_filter T60_in_periods sampling_freq with
          z1 := z1, z2 := z2 } x =
      (round (((initialize_delay_error_filter T60_in_periods sampling_freq).b0
          * (x : ℝ) + z1) * (1.0e9 / sampling_freq)),
       { initialize_delay_error_filter T60_in_periods sampling_freq with
           z1 := (initialize_delay_error_filter T60_in_periods sampling_freq).b1
              * (x : ℝ)
             - (initialize_delay_error_filter T60_in_periods sampling_freq).a1
              * ((initialize_delay_error_filter T60_in_periods sampling_freq).b0
                * (x : ℝ) + z1) + z2
           z2 := (initialize_delay_error_filter T60_in_periods sampling_freq).b2
              * (x : ℝ)
             - (initialize_delay_error_filter T60_in_periods sampling_freq).a2
              * ((initialize_delay_error_filter T60_in_periods sampling_freq).b0
                * (x : ℝ) + z1) }) :=
  ⟨rfl, rfl, rfl, rfl, rfl, rfl, rfl, rfl, rfl⟩

/-- C7 counterexample: with the coefficients derived from T60 = 100 at
sampling frequency 48000 and filter state (z1, z2) = (1, 0), the tick on
input x = 0 has y = b0·0 + 1 = 1 and returns round(y · 10⁹/48000) = 20833,
not round(y) = 1 as the claim states. -/
theorem c7_counterexample :
    (delay_error_filter_tick
      { initialize_delay_error_filter 100 48000 with z1 := 1, z2 := 0 } 0).1
        = 20833 ∧
    round (((initialize_delay_error_filter 100 48000).b0 * ((0:ℤ) : ℝ) + 1))
        = 1 ∧
    (20833 : ℤ) ≠ 1 := by
  refine ⟨?_, ?_, by norm_num⟩
  · show round ((((initialize_delay_error_filter 100 48000).b0 * ((0:ℤ) : ℝ) + 1))
      * (1.0e9 / 48000)) = 20833
    rw [show ((initialize_delay_error_filter 100 48000).b0 * ((0:ℤ) : ℝ) + 1)
        = 1 by push_cast; ring, one_mul]
    rw [show ((1.0e9 : ℝ) / 48000) = ((62500/3 : ℚ) : ℝ) by push_cast; norm_num,
      Rat.round_cast]
    norm_num [round_eq]
  · rw [show ((initialize_delay_error_filter 100 48000).b0 * ((0:ℤ) : ℝ) + 1)
        = 1 by push_cast; ring]
    norm_num

/-! ## The downsampling wrapper (RaspaPimpl::_process_timing_error_with_downsampling,
src/src/raspa_pimpl.h lines 1026-1040) -/

/-- `DELAY_FILTER_DOWNSAMPLE_RATE` (src/src/raspa_pimpl.h line 119). -/
def DELAY_FILTER_DOWNSAMPLE_RATE : ℤ := 16

/-- `DELAY_FILTER_SETTLING_CONSTANT` (src/src/raspa_pimpl.h line 116). -/
def DELAY_FILTER_SETTLING_CONSTANT : ℤ := 100

/-- The engine state touched by the wrapper: the filter instance and
`_error_filter_process_count` (constructed as 0). -/
structure TimingFilterState (α : Type) where
  delay_error_filter : DelayErrorFilter α
  error_filter_process_count : ℤ

/-- `RaspaPimpl::_process_timing_error_with_downsampling` (lines 1026-1040):
tick the filter every call, but return its output only on every 16th call,
0 otherwise. -/
def process_timing_error_with_downsampling {α : Type} [LinearOrderedField α]
    [FloorRing α] (s : TimingFilterState α) (timing_error_ns : ℤ) :
    ℤ × TimingFilterState α :=
  let res := delay_error_filter_tick s.delay_error_filter timing_error_ns
  let count := s.error_filter_process_count + 1
  if count < DELAY_FILTER_DOWNSAMPLE_RATE then
    (0, { delay_error_filter := res.2, error_filter_process_count := count })
  else
    (res.1, { delay_error_filter := res.2, error_filter_process_count := 0 })

/-- Iterated wrapper calls over a sequence of timing errors. -/
def run_downsampling {α : Type} [LinearOrderedField α] [FloorRing α]
    (s : TimingFilterState α) : List ℤ → List ℤ × TimingFilterState α
  | [] => ([], s)
  | e :: es =>
    let r := process_timing_error_with_downsampling s e
    let rest := run_downsampling r.2 es
    (r.1 :: rest.1, rest.2)

/-- The raw filter advanced over a sequence of inputs. -/
def tick_fold {α : Type} [LinearOrderedField α] [FloorRing α]
    (F : DelayErrorFilter α) : List ℤ → DelayErrorFilter α
  | [] => F
  | e :: es => tick_fold (delay_error_filter_tick F e).2 es

theorem run_downsampling_cons {α : Type} [LinearOrderedField α] [FloorRing α]
    (s : TimingFilterState α) (e : ℤ) (es : List ℤ) :
    (run_downsampling s (e :: es)).1 =
      (process_timing_error_with_downsampling s e).1 ::
        (run_downsampling (process_timing_error_with_downsampling s e).2 es).1 ∧
    (run_downsampling s (e :: es)).2 =
      (run_downsampling (process_timing_error_with_downsampling s e).2 es).2 :=
  ⟨rfl, rfl⟩

theorem process_warm {α : Type} [LinearOrderedField α] [FloorRing α]
    (F : DelayErrorFilter α) (c : ℤ) (e : ℤ) (hbr : c + 1 < 16) :
    process_timing_error_with_downsampling (⟨F, c⟩ : TimingFilterState α) e =
      (0, ⟨(delay_error_filter_tick F e).2, c + 1⟩) := by
  rw [process_timing_error_with_downsampling]
  simp [DELAY_FILTER_DOWNSAMPLE_RATE, hbr]

theorem process_fire {α : Type} [LinearOrderedField α] [FloorRing α]
    (F : DelayErrorFilter α) (c : ℤ) (e : ℤ) (hbr : ¬c + 1 < 16) :
    process_timing_error_with_downsampling (⟨F, c⟩ : TimingFilterState α) e =
      ((delay_error_filter_tick F e).1, ⟨(delay_error_filter_tick F e).2, 0⟩) := by
  rw [process_timing_error_with_downsampling]
  simp [DELAY_FILTER_DOWNSAMPLE_RATE, hbr]

theorem run_downsampling_spec {α : Type} [LinearOrderedField α] [FloorRing α] :
    ∀ (inputs : List ℤ) (F : DelayErrorFilter α) (c : ℤ), 0 ≤ c → c < 16 →
    (∀ k : ℕ, ((run_downsampling ⟨F, c⟩ inputs).1)[k]? =
      if k < inputs.length then
        some (if (c + k + 1) % 16 = 0 then
          (delay_error_filter_tick (tick_fold F (inputs.take k))
            (inputs.getD k 0)).1
        else 0)
      else none) ∧
    (run_downsampling ⟨F, c⟩ inputs).2.delay_error_filter = tick_fold F inputs := by
  intro inputs
  induction inputs with
  | nil =>
    intro F c hc0 hc16
    exact ⟨fun k => by simp [run_downsampling], by simp [run_downsampling, tick_fold]⟩
  | cons e es ih =>
    intro F c hc0 hc16
    by_cases hbr : c + 1 < 16
    · obtain ⟨ih1, ih2⟩ := ih (delay_error_filter_tick F e).2 (c + 1) (by omega) hbr
      constructor
      · intro k
        rw [(run_downsampling_cons ⟨F, c⟩ e es).1, process_warm F c e hbr]
        cases k with
        | zero =>
          rw [List.getElem?_cons_zero, List.length_cons]
          rw [if_pos (by omega : 0 < es.length + 1)]
          rw [if_neg (by omega : ¬(c + ((0 : ℕ) : ℤ) + 1) % 16 = 0)]
        | succ k =>
          rw [List.getElem?_cons_succ, ih1 k, List.length_cons,
            List.take_succ_cons, List.getD_cons_succ]
          exact if_congr (by omega) (congrArg some (if_congr (by omega) rfl rfl)) rfl
      · rw [(run_downsampling_cons ⟨F, c⟩ e es).2, process_warm F c e hbr]
        exact ih2
    · obtain ⟨ih1, ih2⟩ := ih (delay_error_filter_tick F e).2 0 (by omega) (by omega)
      constructor
      · intro k
        rw [(run_downsampling_cons ⟨F, c⟩ e es).1, process_fire F c e hbr]
        cases k with
        | zero =>
          rw [List.getElem?_cons_zero, List.length_cons]
          rw [if_pos (by omega : 0 < es.length + 1)]
          rw [if_pos (by omega : (c + ((0 : ℕ) : ℤ) + 1) % 16 = 0)]
          rw [List.take_zero, List.getD_cons_zero]
          rfl
        | succ k =>
          rw [List.getElem?_cons_succ, ih1 k, List.length_cons,
            List.take_succ_cons, List.getD_cons_succ]
          exact if_congr (by omega) (congrArg some (if_congr (by omega) rfl rfl)) rfl
      · rw [(run_downsampling_cons ⟨F, c⟩ e es).2, process_fire F c e hbr]
        exact ih2

/-- C6: over any sequence of wrapper calls starting from a fresh engine
state (`_error_filter_process_count` = 0), the k-th call returns the inner
filter tick's result exactly when k + 1 is a multiple of 16 and returns 0
otherwise, while the inner filter is ticked on every call (the final filter
state is the 16-fold of all inputs). -/
theorem c6_downsampling_wrapper {α : Type} [LinearOrderedField α] [FloorRing α]
    (F : DelayErrorFilter α) (inputs : List ℤ) :
    (∀ k : ℕ, ((run_downsampling ⟨F, 0⟩ inputs).1)[k]? =
      if k < inputs.length then
        some (if (k + 1) % 16 = 0 then
          (delay_error_filter_tick (tick_fold F (inputs.take k))
            (inputs.getD k 0)).1
        else 0)
      else none) ∧
    (run_downsampling ⟨F, 0⟩ inputs).2.delay_error_filter = tick_fold F inputs := by
  obtain ⟨h1, h2⟩ := run_downsampling_spec inputs F 0 le_rfl (by norm_num)
  refine ⟨fun k => ?_, h2⟩
  rw [h1 k]
  exact if_congr Iff.rfl (congrArg some (if_congr (by omega) rfl rfl)) rfl

/-! ## The synchronous RT loop (RaspaPimpl::_rt_loop_sync,
src/src/raspa_pimpl.h lines 1232-1299)

One loop period is modelled for the normal path: the irq-wait and
userproc-finished ioctls succeed and no stop is requested. The observable
actions of a period are recorded in a trace record. `_interrupts_counter`
is set to 0 in `open_device` (line 329) and incremented at the end of every
successful period in both the warm-up loop (condition
`_interrupts_counter < DELAY_FILTER_SETTLING_CONSTANT`) and the main
loop. -/

/-- The sync-loop state: `_interrupts_counter` plus the filter state used
by `_process_timing_error_with_downsampling`. -/
structure SyncLoopState (α : Type) where
  interrupts_counter : ℤ
  filt : TimingFilterState α

/-- What one sync period does, as observed from outside: whether
`_perform_user_callback` ran, whether the delay-error filter was ticked,
and the correction passed to the `RASPA_USERPROC_FINISHED` ioctl. -/
structure SyncPeriodTrace where
  user_callback_invoked : Bool
  filter_tick_invoked : Bool
  correction_to_finish_ioctl : ℤ
  deriving DecidableEq, Repr

/-- One period of `_rt_loop_sync` on the normal path. While
`_interrupts_counter < DELAY_FILTER_SETTLING_CONSTANT` the warm-up body
runs (lines 1235-1261): filter-and-downsample the timing error, parse rx,
prepare tx, pass the correction to the finish ioctl — but no user
callback. Afterwards the main body (lines 1264-1298) additionally performs
the user callback. Both increment the counter. -/
def rt_loop_sync_period {α : Type} [LinearOrderedField α] [FloorRing α]
    (s : SyncLoopState α) (timing_error_ns : ℤ) :
    SyncLoopState α × SyncPeriodTrace :=
  let r := process_timing_error_with_downsampling s.filt timing_error_ns
  if s.interrupts_counter < DELAY_FILTER_SETTLING_CONSTANT then
    ({ interrupts_counter := s.interrupts_counter + 1, filt := r.2 },
     { user_callback_invoked := false, filter_tick_invoked := true,
       correction_to_finish_ioctl := r.1 })
  else
    ({ interrupts_counter := s.interrupts_counter + 1, filt := r.2 },
     { user_callback_invoked := true, filter_tick_invoked := true,
       correction_to_finish_ioctl := r.1 })

/-- Iterated sync periods over a sequence of received timing errors,
collecting the trace. -/
def run_rt_loop_sync {α : Type} [LinearOrderedField α] [FloorRing α]
    (s : SyncLoopState α) : List ℤ → SyncLoopState α × List SyncPeriodTrace
  | [] => (s, [])
  | e :: es =>
    let p := rt_loop_sync_period s e
    let rest := run_rt_loop_sync p.1 es
    (rest.1, p.2 :: rest.2)

theorem rt_loop_sync_period_eq {α : Type} [LinearOrderedField α] [FloorRing α]
    (c : ℤ) (f : TimingFilterState α) (e : ℤ) :
    rt_loop_sync_period (⟨c, f⟩ : SyncLoopState α) e =
      (⟨c + 1, (process_timing_error_with_downsampling f e).2⟩,
       ⟨decide (100 ≤ c), true,
        (process_timing_error_with_downsampling f e).1⟩) := by
  rw [rt_loop_sync_period]
  by_cases h : c < DELAY_FILTER_SETTLING_CONSTANT
  · rw [if_pos h]
    have hd : decide (100 ≤ c) = false := by
      rw [decide_eq_false_iff_not]
      simp only [DELAY_FILTER_SETTLING_CONSTANT] at h
      omega
    rw [hd]
  · rw [if_neg h]
    have hd : decide (100 ≤ c) = true := by
      rw [decide_eq_true_eq]
      simp only [DELAY_FILTER_SETTLING_CONSTANT] at h
      omega
    rw [hd]

theorem run_rt_loop_sync_cons {α : Type} [LinearOrderedField α] [FloorRing α]
    (s : SyncLoopState α) (e : ℤ) (es : List ℤ) :
    (run_rt_loop_sync s (e :: es)).1 =
      (run_rt_loop_sync (rt_loop_sync_period s e).1 es).1 ∧
    (run_rt_loop_sync s (e :: es)).2 =
      (rt_loop_sync_period s e).2 ::
        (run_rt_loop_sync (rt_loop_sync_period s e).1 es).2 :=
  ⟨rfl, rfl⟩

theorem run_rt_loop_sync_spec {α : Type} [LinearOrderedField α] [FloorRing α] :
    ∀ (errors : List ℤ) (c : ℤ) (f : TimingFilterState α),
    ((run_rt_loop_sync ⟨c, f⟩ errors).2).map
        (fun t => t.correction_to_finish_ioctl) =
      (run_downsampling f errors).1 ∧
    ((run_rt_loop_sync ⟨c, f⟩ errors).2).all
        (fun t => t.filter_tick_invoked) = true ∧
    ((run_rt_loop_sync ⟨c, f⟩ errors).2).map
        (fun t => t.user_callback_invoked) =
      (List.range errors.length).map (fun k : ℕ => decide (100 ≤ c + (k : ℤ))) ∧
    (run_rt_loop_sync ⟨c, f⟩ errors).1.filt = (run_downsampling f errors).2 := by
  intro errors
  induction errors with
  | nil =>
    intro c f
    exact ⟨rfl, rfl, rfl, rfl⟩
  | cons e es ih =>
    intro c f
    obtain ⟨ih1, ih2, ih3, ih4⟩ :=
      ih (c + 1) (process_timing_error_with_downsampling f e).2
    have hpd := run_rt_loop_sync_cons (⟨c, f⟩ : SyncLoopState α) e es
    refine ⟨?_, ?_, ?_, ?_⟩
    · rw [hpd.2, List.map_cons, rt_loop_sync_period_eq, ih1,
        (run_downsampling_cons f e es).1]
    · rw [hpd.2, List.all_cons, rt_loop_sync_period_eq, ih2]
      rfl
    · rw [hpd.2, List.map_cons, rt_loop_sync_period_eq, ih3,
        List.length_cons, List.range_succ_eq_map, List.map_cons,
        List.map_map]
      refine congrArg₂ List.cons (by norm_num) ?_
      refine List.map_congr_left fun k hk => ?_
      show decide (100 ≤ c + 1 + (k : ℤ)) = decide (100 ≤ c + ((k + 1 : ℕ) : ℤ))
      exact decide_eq_decide.mpr (by omega)
    · rw [hpd.1, rt_loop_sync_period_eq, ih4,
        (run_downsampling_cons f e es).2]

/-- C5: in Sync mode, starting from `_interrupts_counter` = 0, the k-th
period's trace shows the user callback invoked exactly when 100 ≤ k (the
first 100 periods are warm-up with no callback, every later period invokes
it), the filter tick invoked on every period, and the correction passed to
the userproc-finished ioctl equal to the downsampling wrapper's output on
the received timing errors; the filter state is threaded through every
period. -/
theorem c5_sync_warmup {α : Type} [LinearOrderedField α] [FloorRing α]
    (filt0 : TimingFilterState α) (errors : List ℤ) :
    ((run_rt_loop_sync ⟨0, filt0⟩ errors).2).map
        (fun t => t.user_callback_invoked) =
      (List.range errors.length).map (fun k : ℕ => decide ((100 : ℤ) ≤ (k : ℤ))) ∧
    ((run_rt_loop_sync ⟨0, filt0⟩ errors).2).all
        (fun t => t.filter_tick_invoked) = true ∧
    ((run_rt_loop_sync ⟨0, filt0⟩ errors).2).map
        (fun t => t.correction_to_finish_ioctl) =
      (run_downsampling filt0 errors).1 ∧
    (run_rt_loop_sync ⟨0, filt0⟩ errors).1.filt =
      (run_downsampling filt0 errors).2 := by
  obtain ⟨h1, h2, h3, h4⟩ := run_rt_loop_sync_spec errors 0 filt0
  refine ⟨?_, h2, h1, h4⟩
  rw [h3]
  refine List.map_congr_left fun k hk => ?_
  show decide (100 ≤ (0 : ℤ) + (k : ℤ)) = decide ((100 : ℤ) ≤ (k : ℤ))
  exact decide_eq_decide.mpr (by omega)

/-! ## Next-tx-packet selection (RaspaPimpl::_get_next_tx_pkt_data,
src/src/raspa_pimpl.h lines 1123-1142, and RaspaPimpl::_prepare_gpio_cmd_pkt,
lines 1065-1081)

The audio_control_protocol headers are a git submodule absent from the
tree, so the packet record and its helpers are modelled from the spec
(spec.md section 4.5 and the packet layout paragraph): a packet carries a
sequence number, a command, a sub-command and a payload of GPIO blobs; the
GPIO bridge's outbound side is modelled as a FIFO list of blobs, where
`get_gpio_data_from_nrt` pops the head and `rx_gpio_data_available` tests
non-emptiness. -/

/-- Packet commands relevant to tx selection. -/
inductive PktCommand
  | NOP
  | GPIO_CMD
  | CEASE
  deriving DecidableEq, Repr

/-- Modelled from the spec: the tx-relevant fields of
`audio_ctrl::AudioCtrlPkt` (magic words are always stamped by the helpers
and are not modelled). -/
structure AudioCtrlPkt (blob : Type) where
  seq : ℕ
  command : PktCommand
  sub_command : ℕ
  payload : List blob
  deriving Repr

/-- Modelled from the spec: `audio_ctrl::create_default_audio_ctrl_pkt`
clears the packet and stamps the current sequence number (command NOP, no
payload). -/
def create_default_audio_ctrl_pkt {blob : Type} (seq : ℕ) : AudioCtrlPkt blob :=
  { seq := seq, command := .NOP, sub_command := 0, payload := [] }

/-- Modelled from the spec: `audio_ctrl::prepare_audio_cease_pkt` sets
command CEASE with the sequence number handed in. -/
def prepare_audio_cease_pkt {blob : Type} (seq : ℕ) : AudioCtrlPkt blob :=
  { seq := seq, command := .CEASE, sub_command := 0, payload := [] }

/-- Modelled from the spec: `audio_ctrl::prepare_gpio_cmd_pkt` sets
command GPIO, sub-command = number of blobs, and increments the
sequence. -/
def prepare_gpio_cmd_pkt {blob : Type} (p : AudioCtrlPkt blob)
    (num_blobs : ℕ) : AudioCtrlPkt blob :=
  { p with command := .GPIO_CMD, sub_command := num_blobs, seq := p.seq + 1 }

/-- `RaspaGpioCom::rx_gpio_data_available` on the queue model: outbound
blobs are waiting. -/
def rx_gpio_data_available {blob : Type} (q : List blob) : Bool :=
  !q.isEmpty

/-- `RaspaPimpl::_prepare_gpio_cmd_pkt` (lines 1065-1081): clear the packet
to default, pop blobs from the bridge into the payload while fewer than
`AUDIO_CTRL_PKT_MAX_NUM_GPIO_DATA_BLOBS` (the compile-time maximum, a
parameter here) have been taken and the bridge still delivers, then stamp
the GPIO command with the blob count. Returns the packet and the remaining
queue. -/
def raspa_prepare_gpio_cmd_pkt {blob : Type} (MAX : ℕ) (seq : ℕ)
    (q : List blob) : AudioCtrlPkt blob × List blob :=
  let cleared : AudioCtrlPkt blob := create_default_audio_ctrl_pkt seq
  let taken := q.take MAX
  (prepare_gpio_cmd_pkt { cleared with payload := taken } taken.length,
   q.drop MAX)

/-- The engine state read and written by `_get_next_tx_pkt_data`:
`_stop_request_flag`, `_audio_packet_seq_num` and the GPIO bridge's
outbound queue. -/
structure TxState (blob : Type) where
  stop_request_flag : Bool
  audio_packet_seq_num : ℕ
  gpio_queue : List blob

/-- `RaspaPimpl::_get_next_tx_pkt_data` (lines 1123-1142): cease if
stopping, else a GPIO-command packet if the bridge has outbound blobs,
else a default packet. -/
def get_next_tx_pkt_data {blob : Type} (MAX : ℕ) (s : TxState blob) :
    AudioCtrlPkt blob × TxState blob :=
  if s.stop_request_flag then
    (prepare_audio_cease_pkt s.audio_packet_seq_num, s)
  else if rx_gpio_data_available s.gpio_queue then
    let r := raspa_prepare_gpio_cmd_pkt MAX s.audio_packet_seq_num s.gpio_queue
    (r.1, { s with gpio_queue := r.2, audio_packet_seq_num := r.1.seq })
  else
    (create_default_audio_ctrl_pkt s.audio_packet_seq_num, s)

/-- C8: the next tx packet is selected in fixed priority order. If the stop
flag is set, an audio-cease packet with the current sequence number and
untouched state; otherwise, if the GPIO bridge has outbound blobs, a
GPIO-command packet whose payload is the first min(MAX, queue length)
blobs popped from the bridge (at most the compile-time maximum MAX),
sub-command = that count, sequence incremented; otherwise a default packet
with no payload and untouched state. -/
theorem c8_next_tx_pkt_priority {blob : Type} (MAX : ℕ) (s : TxState blob) :
    (s.stop_request_flag = true →
      get_next_tx_pkt_data MAX s =
        (prepare_audio_cease_pkt s.audio_packet_seq_num, s)) ∧
    (s.stop_request_flag = false → rx_gpio_data_available s.gpio_queue = true →
      get_next_tx_pkt_data MAX s =
        ({ seq := s.audio_packet_seq_num + 1, command := .GPIO_CMD,
           sub_command := (s.gpio_queue.take MAX).length,
           payload := s.gpio_queue.take MAX },
         { s with gpio_queue := s.gpio_queue.drop MAX,
                  audio_packet_seq_num := s.audio_packet_seq_num + 1 }) ∧
      (s.gpio_queue.take MAX).length = min MAX s.gpio_queue.length ∧
      s.gpio_queue.take MAX ++ s.gpio_queue.drop MAX = s.gpio_queue) ∧
    (s.stop_request_flag = false → rx_gpio_data_available s.gpio_queue = false →
      get_next_tx_pkt_data MAX s =
        (create_default_audio_ctrl_pkt s.audio_packet_seq_num, s) ∧
      (create_default_audio_ctrl_pkt s.audio_packet_seq_num
        : AudioCtrlPkt blob).payload = [] ∧
      (create_default_audio_ctrl_pkt s.audio_packet_seq_num
        : AudioCtrlPkt blob).command = .NOP) := by
  refine ⟨fun hstop => ?_, fun hrun hgpio => ?_, fun hrun hgpio => ?_⟩
  · rw [get_next_tx_pkt_data, if_pos hstop]
  · rw [get_next_tx_pkt_data, if_neg (by rw [hrun]; exact Bool.false_ne_true),
      if_pos hgpio]
    exact ⟨rfl, List.length_take MAX s.gpio_queue, List.take_append_drop MAX s.gpio_queue⟩
  · rw [get_next_tx_pkt_data, if_neg (by rw [hrun]; exact Bool.false_ne_true),
      if_neg (by rw [hgpio]; exact Bool.false_ne_true)]
    exact ⟨rfl, rfl, rfl⟩

/-- C8 witness: with blobs numbered over ℕ, MAX = 4, sequence 7 and five
outbound blobs, the selected packet is the GPIO command carrying the first
four blobs with sequence 8, leaving the fifth queued. -/
theorem c8_next_tx_pkt_priority_witness :
    get_next_tx_pkt_data 4 (⟨false, 7, [1, 2, 3, 4, 5]⟩ : TxState ℕ) =
      ({ seq := 8, command := .GPIO_CMD, sub_command := 4,
         payload := [1, 2, 3, 4] },
       ⟨false, 8, [5]⟩) := by
  have h := ((c8_next_tx_pkt_priority 4
      (⟨false, 7, [1, 2, 3, 4, 5]⟩ : TxState ℕ)).2.1 rfl rfl).1
  simpa using h

/-! ## Error-code registry (src/src/raspa_error_codes.h)

`RaspaErrorCode` keeps two `std::map<int, ...>`: `_error_text`, populated
once from the ERROR_CODES_OP table, and `_error_val`, all zeros initially.
`_error_val` is modelled as a total function ℤ → ℤ defaulting to 0, which
matches `std::map::operator[]` default-insertion on read. The libc
`strerror` is a parameter. -/

/-- `DRIVER_PARAM_ERROR_INFO` (lines 31-32). -/
def DRIVER_PARAM_ERROR_INFO : String :=
  "The driver might not have been loaded or has invalid configuration or version."

/-- The `ERROR_CODES_OP` table (lines 38-71): ids and texts. -/
def ERROR_CODES : List (ℤ × String) :=
  [(0, "Raspa: No error. "),
   (100, "Raspa: Buffer size mismatch with driver "),
   (101, "Raspa: Version mismatch with driver "),
   (102, "Raspa: Failed to get buffers from driver "),
   (103, "Raspa: Failed to allocate user audio buffers "),
   (104, "Raspa: Failed to set affinity for RT task "),
   (105, "Raspa: Failed to create RT task "),
   (106, "Raspa: Failed to start RT task "),
   (107, "Raspa: Failed to stop RT task "),
   (108, "Raspa: Failed to cancel RT task "),
   (109, "Raspa: Failed to unmap driver buffers "),
   (110, "Raspa: Failed to open driver "),
   (111, "Raspa: Failed to close driver "),
   (112, "Raspa: Unsupported codec format "),
   (113, "Raspa: Unsupported platform type "),
   (114, "Raspa: Incorrect firmware on external micro-controller "),
   (115, "Raspa: External micro-controller not responding "),
   (116, "Raspa: Failed to create input socket for gpio data communication "),
   (117, "Raspa: Failed to create output socket for gpio data communication "),
   (118, "Raspa: Failed to bind input socket to address "),
   (119, "Raspa: Failed to set input socket to address "),
   (120, "Raspa: Failed to lock memory needed to prevent page swapping "),
   (121, "Raspa: driver configured with invalid buffer size. "),
   (122, "Raspa: sample converter does not suppot specified buffer size. "),
   (200, "Raspa: Unable to param from driver "),
   (201, "Raspa: Unable to read sample rate param from driver "),
   (202, "Raspa: Unable to read num input chans param from driver "),
   (203, "Raspa: Unable to read num output chans param from driver "),
   (204, "Raspa: Unable to read codec format param from driver "),
   (205, "Raspa: Unable to read platform type param from driver "),
   (206, "Raspa: Unable to read driver version param from driver "),
   (207, "Raspa: Unable to access buffer size param of driver "),
   (208, "Raspa: Alsa usb init failed ")]

/-- Lookup in the `_error_text` map (`_error_text.find`, line 134). -/
def find_error_text (code : ℤ) : Option String :=
  (ERROR_CODES.find? (fun p => p.1 == code)).map (fun p => p.2)

/-- `RaspaErrorCode::set_error_val` (lines 118-121): stores the absolute
value of the linux errno under the RAW raspa error code — the key is not
taken through `std::abs`. -/
def set_error_val (m : ℤ → ℤ) (raspa_error_code error_val : ℤ) : ℤ → ℤ :=
  Function.update m raspa_error_code |error_val|

/-- `RaspaErrorCode::get_error_text` (lines 130-159): look the ABSOLUTE
value of the code up in `_error_text`; unknown codes give the fixed string;
a zero stored errno gives the bare text; otherwise the strerror description
is appended in brackets, plus `DRIVER_PARAM_ERROR_INFO` for codes ≥ 200
(RASPA_EPARAM). -/
def get_error_text (strerror : ℤ → String) (m : ℤ → ℤ)
    (raspa_error_code : ℤ) : String :=
  match find_error_text |raspa_error_code| with
  | none => "Raspa: Unknown error"
  | some text =>
    if m |raspa_error_code| = 0 then text
    else if 200 ≤ |raspa_error_code| then
      text ++ "(" ++ strerror (m |raspa_error_code|) ++ "). "
        ++ DRIVER_PARAM_ERROR_INFO
    else text ++ "(" ++ strerror (m |raspa_error_code|) ++ "). "

/-- C10 (amended): the LOOKUP treats a code and its negation identically
(the lookup key is the absolute value), unknown codes give "Raspa: Unknown
error", and a zero stored errno gives the bare registry text; but the
STORE side does not abs its key: set_error_val stores |errno| under the
raw code, so storing under a negative code never affects any lookup. -/
theorem c10_error_text_amended (strerror : ℤ → String) (m : ℤ → ℤ)
    (code v : ℤ) :
    get_error_text strerror m (-code) = get_error_text strerror m code ∧
    (find_error_text |code| = none →
      get_error_text strerror m code = "Raspa: Unknown error") ∧
    (∀ text, find_error_text |code| = some text → m |code| = 0 →
      get_error_text strerror m code = text) ∧
    set_error_val m code v = Function.update m code |v| ∧
    (code < 0 →
      get_error_text strerror (set_error_val m code v) code =
        get_error_text strerror m code) := by
  refine ⟨by simp only [get_error_text, abs_neg], fun h => by simp [get_error_text, h],
    fun text ht hv => by simp [get_error_text, ht, hv], rfl, fun hneg => ?_⟩
  have hne : |code| ≠ code := by
    rw [abs_of_neg hneg]
    omega
  simp only [get_error_text, set_error_val, Function.update_noteq hne]

/-- C10 amended-theorem witness: code 7 is unknown; code 101 with zero
errno gives the bare version-mismatch text; storing errno 5 under −101
changes no lookup. -/
theorem c10_error_text_amended_witness :
    get_error_text (fun _ => "E") (fun _ => 0) 7 = "Raspa: Unknown error" ∧
    get_error_text (fun _ => "E") (fun _ => 0) 101 =
      "Raspa: Version mismatch with driver " ∧
    get_error_text (fun _ => "E") (set_error_val (fun _ => 0) (-101) 5) (-101) =
      get_error_text (fun _ => "E") (fun _ => 0) (-101) :=
  ⟨(c10_error_text_amended (fun _ => "E") (fun _ => 0) 7 0).2.1 (by decide),
   (c10_error_text_amended (fun _ => "E") (fun _ => 0) 101 0).2.2.1
     "Raspa: Version mismatch with driver " (by decide) rfl,
   (c10_error_text_amended (fun _ => "E") (fun _ => 0) (-101) 5).2.2.2.2
     (by norm_num)⟩

/-- C10 counterexample: the claim says the STORED key is the absolute
value. In the code `set_error_val` keys the raw code, so after
set_error_val(−100, 5) the lookup of −100 (which keys |−100| = 100, whose
stored errno is still 0) returns the bare text with no errno description —
whereas under the claimed behaviour (key |−100| = 100, exhibited by
updating key 100 directly) the text would carry the appended strerror
description. -/
theorem c10_counterexample :
    get_error_text (fun _ => "Input or output error")
        (set_error_val (fun _ => 0) (-100) 5) (-100) =
      "Raspa: Buffer size mismatch with driver " ∧
    get_error_text (fun _ => "Input or output error")
        (Function.update (fun _ => 0) (100 : ℤ) 5) (-100) =
      "Raspa: Buffer size mismatch with driver (Input or output error). " ∧
    "Raspa: Buffer size mismatch with driver " ≠
      "Raspa: Buffer size mismatch with driver (Input or output error). " := by
  refine ⟨by decide, by decide, by decide⟩

/-! ## Driver parameter reads (src/src/driver_config.h lines 175-198) and
the audio-info step (src/src/raspa_pimpl.h lines 558-628)

`read_driver_param` performs open / read / atoi; the I/O outcomes are
environment inputs to the model. POSIX: a failed `open` returns a negative
value; a failed `read` returns a negative value and sets `errno` to a
POSITIVE error number. -/

/-- The I/O environment of one `read_driver_param` call: the fd (or
negative error) from `open`, the byte count (or negative) from `read`, the
positive `errno` left by a failed read, and the `atoi` of the bytes read on
success. -/
structure DriverParamEnv where
  open_result : ℤ
  read_result : ℤ
  errno_after_read : ℤ
  file_value : ℤ
  deriving DecidableEq, Repr

/-- `driver_conf::read_driver_param` (lines 175-198): a failed open
returns the fd; a failed read returns `errno` — the raw, POSITIVE errno,
not a negative error code; otherwise the parsed value. -/
def read_driver_param (env : DriverParamEnv) : ℤ :=
  if env.open_result < 0 then env.open_result
  else if env.read_result < 0 then env.errno_after_read
  else env.file_value

/-- `RASPA_EPARAM_SAMPLERATE` (raspa_error_codes.h line 64). -/
def RASPA_EPARAM_SAMPLERATE : ℤ := 201

/-- The sample-rate leg of `RaspaPimpl::_get_audio_info_from_driver`
(raspa_pimpl.h lines 560, 567-572): the value from
`driver_conf::get_sample_rate` is rejected only when negative; any
non-negative value is accepted as the sample rate. -/
def get_audio_info_sample_rate (env : DriverParamEnv) : Except ℤ ℤ :=
  let sample_rate := read_driver_param env
  if sample_rate < 0 then Except.error (-RASPA_EPARAM_SAMPLERATE)
  else Except.ok sample_rate

/-- C4: the claim requires every failed I/O step to yield a negative
return. The open-failure path does (first conjunct), but a failed `read`
makes `read_driver_param` return the raw positive `errno` (here fd 3,
read fails, errno 5): the result 5 is not negative, and the engine's
audio-info step accepts it as a valid sample rate of 5 Hz instead of
reporting `-RASPA_EPARAM_SAMPLERATE` — the failure is passed through as a
parameter value. -/
theorem c4_read_error_code_bug :
    read_driver_param ⟨-2, 0, 0, 0⟩ = -2 ∧
    read_driver_param ⟨3, -1, 5, 0⟩ = 5 ∧
    ¬read_driver_param ⟨3, -1, 5, 0⟩ < 0 ∧
    get_audio_info_sample_rate ⟨3, -1, 5, 0⟩ = Except.ok 5 ∧
    get_audio_info_sample_rate ⟨-2, 0, 0, 0⟩ =
      Except.error (-RASPA_EPARAM_SAMPLERATE) := by
  refine ⟨by decide, by decide, by decide, rfl, rfl⟩

/-! ## Engine open and failure cleanup (RaspaPimpl::open_device,
src/src/raspa_pimpl.h lines 245-333, and RaspaPimpl::_cleanup, lines
966-986)

The resource flags are `_device_opened`, `_mmap_initialized`,
`_user_buffers_allocated`, `_task_started`, plus the held smart pointers
`_sample_converter`, `_delay_error_filter`, `_gpio_com`. Step outcomes
(driver version check, parameter reads, device open, mmap, allocation,
converter construction, GPIO bridge init) are environment inputs; the
dispositions of `_cleanup` are recorded as an event trace. Per C9 the
converter construction yields null exactly for unsupported
(buffer size, stride, format) tuples, so `converter_ok = false` is a
reachable outcome (e.g. the driver and caller agree on buffer size 7). -/

/-- `driver_conf::PlatformType` (driver_config.h). -/
inductive PlatformType
  | NATIVE
  | SYNC
  | ASYNC
  deriving DecidableEq, Repr

/-- The engine's resource-holding state. -/
structure EngineState where
  device_opened : Bool
  mmap_initialized : Bool
  user_buffers_allocated : Bool
  task_started : Bool
  sample_converter_held : Bool
  delay_error_filter_held : Bool
  gpio_com_held : Bool
  deriving DecidableEq, Repr

/-- The teardown actions `_cleanup` can perform, in the claim's reverse
order: thread stop, free user buffers, munmap, device close. -/
inductive CleanupEvent
  | stop_task
  | free_user_buffers
  | unmap
  | close_device
  deriving DecidableEq, Repr

/-- `RaspaPimpl::_cleanup` (lines 966-986): stop the RT task, free user
buffers, unmap driver buffers, close the device — each conditional on its
flag (the conditions live inside `_stop_rt_task`, `_free_user_buffers`,
`_release_driver_buffers`, `_close_device`) — then drop the sample
converter, the delay filter (Sync only) and the GPIO bridge (non-Native
only). Returns the cleared state and the actions performed in order. -/
def cleanup (platform : PlatformType) (s : EngineState) :
    EngineState × List CleanupEvent :=
  ({ device_opened := false, mmap_initialized := false,
     user_buffers_allocated := false, task_started := false,
     sample_converter_held := false,
     delay_error_filter_held :=
       if platform = .SYNC then false else s.delay_error_filter_held,
     gpio_com_held :=
       if platform ≠ .NATIVE then false else s.gpio_com_held },
   (if s.task_started then [CleanupEvent.stop_task] else []) ++
   (if s.user_buffers_allocated then [CleanupEvent.free_user_buffers] else []) ++
   (if s.mmap_initialized then [CleanupEvent.unmap] else []) ++
   (if s.device_opened then [CleanupEvent.close_device] else []))

/-- `RASPA_EVERSION` (raspa_error_codes.h line 41). -/
def RASPA_EVERSION : ℤ := 101

/-- `RASPA_ENOMEM` (raspa_error_codes.h line 42). -/
def RASPA_ENOMEM : ℤ := 102

/-- `RASPA_EUSER_BUFFERS` (raspa_error_codes.h line 43). -/
def RASPA_EUSER_BUFFERS : ℤ := 103

/-- `RASPA_EBUFFER_SIZE_MISMATCH` (raspa_error_codes.h line 40). -/
def RASPA_EBUFFER_SIZE_MISMATCH : ℤ := 100

/-- `RASPA_EBUFFER_SIZE_SC` (raspa_error_codes.h line 62). -/
def RASPA_EBUFFER_SIZE_SC : ℤ := 122

/-- `RASPA_EPARAM_VERSION` (raspa_error_codes.h line 69). -/
def RASPA_EPARAM_VERSION : ℤ := 206

/-- `RASPA_EPARAM_BUFFER_SIZE` (raspa_error_codes.h line 70). -/
def RASPA_EPARAM_BUFFER_SIZE : ℤ := 207

/-- The environment of one `open_device` call: the outcome of every
fallible step. `version_param_val` is `check_driver_version().second`,
`audio_info_res` the result of `_get_audio_info_from_driver`,
`driver_buffer_size` the value `_validate_buffer_size` reads back,
`open_err` the (negative) code `_open_device` returns on failure,
`gpio_init_res` the result of `_gpio_com->init()`. -/
structure OpenEnv where
  version_check_ok : Bool
  version_param_val : ℤ
  audio_info_res : ℤ
  platform : PlatformType
  driver_buffer_size : ℤ
  open_ok : Bool
  open_err : ℤ
  mmap_ok : Bool
  user_buffers_ok : Bool
  converter_ok : Bool
  gpio_init_res : ℤ
  deriving DecidableEq, Repr

/-- `RaspaPimpl::open_device` (lines 245-333): version check, audio info,
buffer-size validation, `_open_device`, `_get_driver_buffers` (mmap,
`_cleanup` on failure), `_init_user_buffers` (`_cleanup` on failure),
`_init_sample_converter` (plain return on null, NO `_cleanup`), delay
filter (Sync), `_init_gpio_com` (non-Native; plain return on failure, NO
`_cleanup`). Returns (result, final state, cleanup-event trace). -/
def open_device (env : OpenEnv) (buffer_size : ℤ) (s0 : EngineState) :
    ℤ × EngineState × List CleanupEvent :=
  if env.version_check_ok = false then
    if env.version_param_val < 0 then (-RASPA_EPARAM_VERSION, s0, [])
    else (-RASPA_EVERSION, s0, [])
  else if env.audio_info_res ≠ 0 then (env.audio_info_res, s0, [])
  else if env.driver_buffer_size < 0 then (-RASPA_EPARAM_BUFFER_SIZE, s0, [])
  else if env.driver_buffer_size ≠ buffer_size then
    (-RASPA_EBUFFER_SIZE_MISMATCH, s0, [])
  else if env.open_ok = false then
    (env.open_err, { s0 with device_opened := false }, [])
  else
    let s1 := { s0 with device_opened := true }
    if env.mmap_ok = false then
      let r := cleanup env.platform { s1 with mmap_initialized := false }
      (-RASPA_ENOMEM, r.1, r.2)
    else
      let s2 := { s1 with mmap_initialized := true }
      if env.user_buffers_ok = false then
        let r := cleanup env.platform { s2 with user_buffers_allocated := false }
        (-RASPA_EUSER_BUFFERS, r.1, r.2)
      else
        let s3 := { s2 with user_buffers_allocated := true }
        if env.converter_ok = false then
          (-RASPA_EBUFFER_SIZE_SC, { s3 with sample_converter_held := false }, [])
        else
          let s4 := { s3 with sample_converter_held := true }
          let s5 := if env.platform = .SYNC then
              { s4 with delay_error_filter_held := true }
            else s4
          if env.platform ≠ .NATIVE then
            if env.gpio_init_res ≠ 0 then
              (env.gpio_init_res, { s5 with gpio_com_held := true }, [])
            else (0, { s5 with gpio_com_held := true }, [])
          else (0, s5, [])

/-- C3 (amended): from a clean engine state, the mmap-failure and
user-buffer-failure exits DO run `_cleanup`, whose actions run in strict
reverse order of acquisition and leave no resource held; the early exits
(version, parameter, buffer-size mismatch, device open) return before any
resource is acquired; but the sample-converter-construction and
GPIO-bridge-init failure exits return WITHOUT cleanup, leaving the device
open, the driver buffers mapped and the user buffers allocated. -/
theorem c3_open_cleanup_amended (env : OpenEnv) (buffer_size : ℤ) :
    (env.version_check_ok = true → env.audio_info_res = 0 →
     0 ≤ env.driver_buffer_size → env.driver_buffer_size = buffer_size →
     env.open_ok = true → env.mmap_ok = false →
      open_device env buffer_size ⟨false, false, false, false, false, false, false⟩ =
        (-RASPA_ENOMEM,
         ⟨false, false, false, false, false, false, false⟩,
         [CleanupEvent.close_device])) ∧
    (env.version_check_ok = true → env.audio_info_res = 0 →
     0 ≤ env.driver_buffer_size → env.driver_buffer_size = buffer_size →
     env.open_ok = true → env.mmap_ok = true → env.user_buffers_ok = false →
      open_device env buffer_size ⟨false, false, false, false, false, false, false⟩ =
        (-RASPA_EUSER_BUFFERS,
         ⟨false, false, false, false, false, false, false⟩,
         [CleanupEvent.unmap, CleanupEvent.close_device])) ∧
    (env.version_check_ok = true → env.audio_info_res = 0 →
     0 ≤ env.driver_buffer_size → env.driver_buffer_size = buffer_size →
     env.open_ok = false →
      open_device env buffer_size ⟨false, false, false, false, false, false, false⟩ =
        (env.open_err,
         ⟨false, false, false, false, false, false, false⟩, [])) ∧
    (env.version_check_ok = true → env.audio_info_res = 0 →
     0 ≤ env.driver_buffer_size → env.driver_buffer_size = buffer_size →
     env.open_ok = true → env.mmap_ok = true → env.user_buffers_ok = true →
     env.converter_ok = false →
      open_device env buffer_size ⟨false, false, false, false, false, false, false⟩ =
        (-RASPA_EBUFFER_SIZE_SC,
         ⟨true, true, true, false, false, false, false⟩, [])) ∧
    (env.version_check_ok = true → env.audio_info_res = 0 →
     0 ≤ env.driver_buffer_size → env.driver_buffer_size = buffer_size →
     env.open_ok = true → env.mmap_ok = true → env.user_buffers_ok = true →
     env.converter_ok = true → env.platform = .ASYNC → env.gpio_init_res ≠ 0 →
      open_device env buffer_size ⟨false, false, false, false, false, false, false⟩ =
        (env.gpio_init_res,
         ⟨true, true, true, false, true, false, true⟩, [])) := by
  refine ⟨fun h1 h2 h3 h4 h5 h6 => ?_, fun h1 h2 h3 h4 h5 h6 h7 => ?_,
    fun h1 h2 h3 h4 h5 => ?_, fun h1 h2 h3 h4 h5 h6 h7 h8 => ?_,
    fun h1 h2 h3 h4 h5 h6 h7 h8 h9 h10 => ?_⟩ <;>
    simp_all [open_device, cleanup]

/-- C3 amended-theorem witness: concrete environments exercising the
mmap-failure exit (cleanup closes the device) and the converter-failure
exit (no cleanup; the device, mapping and buffers stay held). -/
theorem c3_open_cleanup_amended_witness :
    open_device ⟨true, 0, 0, .SYNC, 64, true, 0, false, true, true, 0⟩ 64
        ⟨false, false, false, false, false, false, false⟩ =
      (-RASPA_ENOMEM, ⟨false, false, false, false, false, false, false⟩,
       [CleanupEvent.close_device]) ∧
    open_device ⟨true, 0, 0, .SYNC, 7, true, 0, true, true, false, 0⟩ 7
        ⟨false, false, false, false, false, false, false⟩ =
      (-RASPA_EBUFFER_SIZE_SC,
       ⟨true, true, true, false, false, false, false⟩, []) :=
  ⟨(c3_open_cleanup_amended ⟨true, 0, 0, .SYNC, 64, true, 0, false, true, true, 0⟩
      64).1 rfl rfl (by decide) rfl rfl rfl,
   (c3_open_cleanup_amended ⟨true, 0, 0, .SYNC, 7, true, 0, true, true, false, 0⟩
      7).2.2.2.1 rfl rfl (by decide) rfl rfl rfl rfl rfl⟩

/-- C3 counterexample: the driver and the caller agree on buffer size 7,
every I/O step succeeds, but 7 is unsupported by the sample converter
(per C9), so `_init_sample_converter` yields null and `open_device`
returns −RASPA_EBUFFER_SIZE_SC = −122 with NO cleanup event: the device is
still open, the driver buffers still mapped and the user buffers still
allocated, contradicting the claim that every error exit reverses all
completed steps. -/
theorem c3_counterexample :
    open_device ⟨true, 0, 0, .SYNC, 7, true, 0, true, true, false, 0⟩ 7
        ⟨false, false, false, false, false, false, false⟩ =
      (-122, ⟨true, true, true, false, false, false, false⟩, []) ∧
    get_sample_converter 0 7 .INT24_LJ 0 2 = none ∧
    (⟨true, true, true, false, false, false, false⟩
      : EngineState).device_opened = true ∧
    (⟨true, true, true, false, false, false, false⟩
      : EngineState).mmap_initialized = true ∧
    (⟨true, true, true, false, false, false, false⟩
      : EngineState).user_buffers_allocated = true := by
  refine ⟨by decide, rfl, rfl, rfl, rfl⟩

end Raspa
